import Mathlib

/-!
Shallow embedding of the evermedia-api core: the token service
(src/utils/jwt.ts), the request identity gate (middleware/auth.ts), the
multipart ingestion collector and metadata normalizer
(src/utils/multipart.ts) and the upload handler
(src/api/v1/endpoints/media.ts), together with theorems settling the
specification claims about them.
-/

namespace Vault

/-! JavaScript primitives used by the source. -/

/-- Accumulator pass splitting a character list into its maximal runs of
non-whitespace characters. -/
def splitWsAux : List Char → List Char → List (List Char)
  | [], acc => if acc.isEmpty then [] else [acc.reverse]
  | c :: cs, acc =>
    if c.isWhitespace then
      if acc.isEmpty then splitWsAux cs [] else acc.reverse :: splitWsAux cs []
    else splitWsAux cs (c :: acc)

/-- Model of JS `s.split(/\s+/)` as applied in `extractBearerToken` to an
already-trimmed string: the empty string yields one empty piece, otherwise
the maximal runs of non-whitespace characters. -/
def jsSplitWhitespace (s : String) : List String :=
  if s.data.isEmpty then [""]
  else (splitWsAux s.data []).map (fun cs => ⟨cs⟩)

/-- Model of JS `s.trim()`: strip leading and trailing whitespace. -/
def jsTrim (s : String) : String :=
  ⟨((s.data.dropWhile Char.isWhitespace).reverse.dropWhile Char.isWhitespace).reverse⟩

/-- Value of the longest decimal-digit run at the head of the character
list; `none` when the first character is not a digit. -/
def digitRunVal (cs : List Char) : Option Nat :=
  let ds := cs.takeWhile Char.isDigit
  if ds.isEmpty then none
  else some (ds.foldl (fun acc c => acc * 10 + (c.toNat - 48)) 0)

/-- Model of JS `Number.parseInt(s, 10)`: skip leading whitespace, read an
optional sign, then the longest run of decimal digits; `none` models `NaN`
(no digit found). -/
def jsParseInt10 (s : String) : Option Int :=
  match s.toList.dropWhile Char.isWhitespace with
  | '+' :: rest => (digitRunVal rest).map (fun n => (n : Int))
  | '-' :: rest => (digitRunVal rest).map (fun n => -(n : Int))
  | rest => (digitRunVal rest).map (fun n => (n : Int))

/-! Token service (src/utils/jwt.ts). The jsonwebtoken library that the
wrapper calls is an external dependency, modelled symbolically below; the
wrapper logic itself is translated directly from src/utils/jwt.ts. -/

/-- Claims object carried in a JWT payload, as read by the wrapper
(`sub`, `role`, `username`, `iat`, `exp`; any of them may be absent in a
token that was not produced by this server). -/
structure JwtPayloadRec where
  sub : Option String
  role : Option String
  username : Option String
  iat : Option Nat
  exp : Option Nat
deriving DecidableEq

/-- Modelled from the spec: the HMAC signature computed by the external
jsonwebtoken library ("signs with a server-held secret and a pinned signing
algorithm"). The signature is represented symbolically by the signed
material itself, making the ideal MAC collision-free: two different
(secret, algorithm, payload) triples never share a signature, and a
signature cannot be produced without the secret. -/
structure JwtSig where
  secret : String
  alg : String
  payload : JwtPayloadRec
deriving DecidableEq

/-- Compact serialized JWT: header algorithm, payload, signature. The
base64url serialization is treated as transparent. -/
structure JwtToken where
  alg : String
  payload : JwtPayloadRec
  sig : JwtSig
deriving DecidableEq

/-- Modelled from the spec: jsonwebtoken `jwt.sign(payload, secret,
{ algorithm, expiresIn })` with a TTL in seconds. It stamps `iat` with the
current time, `exp` with `iat + ttlSeconds`, and signs the header and
payload with the secret. -/
def jwtLibSign (secret alg : String) (now ttlSeconds : Nat)
    (sub role username : Option String) : JwtToken :=
  let p : JwtPayloadRec :=
    { sub := sub, role := role, username := username,
      iat := some now, exp := some (now + ttlSeconds) }
  { alg := alg, payload := p, sig := { secret := secret, alg := alg, payload := p } }

/-- Modelled from the spec: jsonwebtoken `jwt.verify(token, secret,
{ algorithms })`, with `none` standing for a thrown verification error.
It checks the signature against the secret, the header algorithm against
the pinned list, and, when an `exp` claim is present, that the token is
not past its expiry (`exp ≤ now` is expired). -/
def jwtLibVerify (secret : String) (algorithms : List String) (now : Nat)
    (tok : JwtToken) : Option JwtPayloadRec :=
  if tok.sig ≠ { secret := secret, alg := tok.alg, payload := tok.payload } then none
  else if ¬ algorithms.contains tok.alg then none
  else
    match tok.payload.exp with
    | some e => if e ≤ now then none else some tok.payload
    | none => some tok.payload

/-- Verified access-token claim as returned by `verify` in
src/utils/jwt.ts (AccessTokenPayload with its required `sub`). -/
structure AccessTokenPayload where
  sub : String
  role : Option String
  username : Option String
  iat : Option Nat
  exp : Option Nat
deriving DecidableEq

/-- Token issuance, `sign` in src/utils/jwt.ts: the effective TTL is
`expiresInMinutes` or the configured default, rendered as `"${m}m"` for the
library (m * 60 seconds), signed with the pinned algorithm. -/
def sign (secret alg : String) (defaultExpireMinutes now : Nat)
    (sub : String) (role username : Option String)
    (expiresInMinutes : Option Nat) : JwtToken :=
  let m := expiresInMinutes.getD defaultExpireMinutes
  jwtLibSign secret alg now (m * 60) (some sub) role username

/-- Token verification, `verify` in src/utils/jwt.ts: library verification
restricted to the single pinned algorithm, then rejection of any decoded
payload whose `sub` is absent or empty (the JS falsy test `!decoded.sub`);
on success the claim fields are copied out. -/
def verify (secret alg : String) (now : Nat) (tok : JwtToken) :
    Option AccessTokenPayload :=
  match jwtLibVerify secret [alg] now tok with
  | none => none
  | some d =>
    match d.sub with
    | none => none
    | some s =>
      if s = "" then none
      else
        some { sub := s, role := d.role, username := d.username,
               iat := d.iat, exp := d.exp }

/-- Helper: the library verifier only ever returns the token's own payload. -/
theorem jwtLibVerify_eq_some (secret : String) (algs : List String) (now : Nat)
    (tok : JwtToken) (d : JwtPayloadRec)
    (h : jwtLibVerify secret algs now tok = some d) : d = tok.payload := by
  unfold jwtLibVerify at h
  split_ifs at h
  split at h
  · split_ifs at h
    exact (Option.some_inj.mp h).symm
  · exact (Option.some_inj.mp h).symm

/-- C3: signing a claim payload with a non-empty subject and verifying the
unmodified token returns the original subject, role and username (before
expiry); a token whose payload or signature has been altered verifies to
invalid; a token past its expiry verifies to invalid even though its
signature is valid. -/
theorem sign_verify_roundtrip_tamper_expiry
    (secret alg : String) (dflt now now2 : Nat)
    (sub : String) (role username : Option String) (ttl : Option Nat)
    (hsub : sub ≠ "") :
    (now2 < now + (ttl.getD dflt) * 60 →
      (verify secret alg now2 (sign secret alg dflt now sub role username ttl)).map
          (fun c => (c.sub, c.role, c.username)) = some (sub, role, username))
    ∧ (∀ p : JwtPayloadRec,
        p ≠ (sign secret alg dflt now sub role username ttl).payload →
        verify secret alg now2
          { alg := alg, payload := p,
            sig := (sign secret alg dflt now sub role username ttl).sig } = none)
    ∧ (∀ sg : JwtSig,
        sg ≠ (sign secret alg dflt now sub role username ttl).sig →
        verify secret alg now2
          { alg := alg,
            payload := (sign secret alg dflt now sub role username ttl).payload,
            sig := sg } = none)
    ∧ (now + (ttl.getD dflt) * 60 ≤ now2 →
        verify secret alg now2 (sign secret alg dflt now sub role username ttl) = none) := by
  refine ⟨?_, ?_, ?_, ?_⟩
  · intro h
    simp [sign, jwtLibSign, verify, jwtLibVerify, Nat.not_le.mpr h, hsub]
  · intro p hp
    simp only [sign, jwtLibSign] at hp ⊢
    simp [verify, jwtLibVerify, JwtSig.mk.injEq, Ne.symm hp]
  · intro sg hsg
    simp only [sign, jwtLibSign] at hsg ⊢
    simp [verify, jwtLibVerify, hsg]
  · intro h
    simp [sign, jwtLibSign, verify, jwtLibVerify, h]

/-- Witness for C3: a concrete roundtrip through sign and verify. -/
theorem sign_verify_roundtrip_tamper_expiry_witness :
    ("u" : String) ≠ "" ∧ (10 : Nat) < 0 + 30 * 60 ∧
    (verify "k" "HS256" 10 (sign "k" "HS256" 30 0 "u" (some "admin") (some "ada") none)).map
        (fun c => (c.sub, c.role, c.username)) = some ("u", some "admin", some "ada") :=
  ⟨by decide, by decide,
    (sign_verify_roundtrip_tamper_expiry "k" "HS256" 30 0 10 "u" (some "admin")
      (some "ada") none (by decide)).1 (by decide)⟩

/-- C10: verification rejects every token whose decoded payload lacks a
non-empty `sub` claim, irrespective of signature, algorithm and expiry;
consequently every claim that `verify` returns has a non-empty subject. -/
theorem verify_requires_nonempty_sub (secret alg : String) (now : Nat)
    (tok : JwtToken) :
    ((tok.payload.sub = none ∨ tok.payload.sub = some "") →
      verify secret alg now tok = none)
    ∧ (∀ c : AccessTokenPayload, verify secret alg now tok = some c → c.sub ≠ "") := by
  constructor
  · intro h
    unfold verify
    cases hv : jwtLibVerify secret [alg] now tok with
    | none => rfl
    | some d =>
      have hd := jwtLibVerify_eq_some secret [alg] now tok d hv
      rcases h with h | h <;> simp [hd, h]
  · intro c hc
    unfold verify at hc
    split at hc
    · exact absurd hc (by simp)
    · split at hc
      · exact absurd hc (by simp)
      · split_ifs at hc with he
        cases hc
        exact he

/-- Witness for C10: a token with a valid signature, matching algorithm and
unexpired `exp` but an empty `sub` is rejected. -/
theorem verify_requires_nonempty_sub_witness :
    verify "k" "HS256" 0
      { alg := "HS256",
        payload := { sub := some "", role := some "admin", username := none,
                     iat := some 0, exp := some 100 },
        sig := { secret := "k", alg := "HS256",
                 payload := { sub := some "", role := some "admin", username := none,
                              iat := some 0, exp := some 100 } } } = none :=
  (verify_requires_nonempty_sub "k" "HS256" 0 _).1 (Or.inr rfl)

/-! Multipart field model (src/utils/multipart.ts). A @fastify/multipart
fields object maps a field name either to one part object or to an array of
part objects (duplicate names); a part object is either a field part
carrying `type: "field"` and a `value`, or a file part without a value. -/

/-- Runtime value of a field part (JS `unknown`): a number, a string, or
anything else. JS numbers are modelled as rationals. -/
inductive FieldValue where
  | num (q : ℚ)
  | str (s : String)
  | other
deriving DecidableEq

/-- One part object as found in a fields map. -/
inductive PartLeaf where
  | fieldVal (v : FieldValue)
  | fileVal
deriving DecidableEq

/-- Entry of a fields map: a single part object or an array of them. -/
inductive PartVal where
  | leaf (p : PartLeaf)
  | arr (xs : List PartLeaf)
deriving DecidableEq

/-- Fields object: association list with JS-object key semantics (one entry
per key; insertion order preserved). -/
abbrev FieldMap := List (String × PartVal)

/-- Property read `fields?.[fieldName]`. -/
def jsObjGet (fields : FieldMap) (key : String) : Option PartVal :=
  (fields.find? (fun p => p.1 = key)).map (fun p => p.2)

/-- Property write `fields[key] = v`: updates the existing entry in place
or appends a new one, as a JS object does. -/
def jsObjSet (fields : FieldMap) (key : String) (v : PartVal) : FieldMap :=
  if fields.any (fun p => p.1 = key) then
    fields.map (fun p => if p.1 = key then (key, v) else p)
  else fields ++ [(key, v)]

/-- Key-membership test, the JS `key in fields` operator. -/
def jsObjHas (fields : FieldMap) (key : String) : Bool :=
  fields.any (fun p => p.1 = key)

/-- getFieldPart from src/utils/multipart.ts: returns the value of the
named part when it is a field part (`type === "field"` with a `value`),
`undefined` otherwise. -/
def getFieldPart (fields : FieldMap) (fieldName : String) : Option FieldValue :=
  match jsObjGet fields fieldName with
  | some (.leaf (.fieldVal v)) => some v
  | _ => none

/-- parseMultipartStringField from src/utils/multipart.ts: the trimmed
string value of the field, `undefined` when absent, non-string, or empty
after trimming. -/
def parseMultipartStringField (fields : FieldMap) (fieldName : String) :
    Option String :=
  match getFieldPart fields fieldName with
  | some (.str s) =>
    let t := jsTrim s
    if t = "" then none else some t
  | _ => none

/-- parseMultipartNumberField from src/utils/multipart.ts: a raw number is
kept only when `Number.isInteger` holds; a string is parsed with
`Number.parseInt(raw.trim(), 10)`; anything else is `undefined`. -/
def parseMultipartNumberField (fields : FieldMap) (fieldName : String) :
    Option ℚ :=
  match getFieldPart fields fieldName with
  | some (.num q) => if q.den = 1 then some q else none
  | some (.str s) => (jsParseInt10 (jsTrim s)).map (fun n => ((n : ℚ)))
  | _ => none

/-! JSON values and the metadata normalizer (src/utils/multipart.ts). -/

/-- JSON-shaped runtime value, the possible results of `JSON.parse`. -/
inductive Jx where
  | jnull
  | jbool (b : Bool)
  | jnum (q : ℚ)
  | jstr (s : String)
  | jarr (xs : List Jx)
  | jobj (kvs : List (String × Jx))

/-- Property read on a parsed JSON object. -/
def jxLookup (kvs : List (String × Jx)) (key : String) : Option Jx :=
  (kvs.find? (fun p => p.1 = key)).map (fun p => p.2)

/-- parseMultipartMetadata from src/utils/multipart.ts: read the named
field, `JSON.parse` its string value (the parser is the JS builtin, passed
in as `jsonParse`, with `none` modelling a parse error), and keep the
result only when it is a non-null non-array object; every failure degrades
to the empty object. -/
def parseMultipartMetadata (jsonParse : String → Option Jx)
    (fields : FieldMap) (fieldName : String) : List (String × Jx) :=
  match getFieldPart fields fieldName with
  | some (.str s) =>
    match jsonParse s with
    | some (.jobj kvs) => kvs
    | _ => []
  | _ => []

/-- Canonical persisted metadata group entry. -/
structure MetadataGroupItem where
  name : String
  type : String
  value : String
deriving DecidableEq

/-- Validation of one element of a `groups` array, from the loop body of
normalizeMetadataGroups: a falsy or non-object element throws; otherwise
`name` and `value` must be strings that are non-empty after trimming
(`type` defaults to "input"). A JS array passes the `typeof` guard but has
no `name`/`value` properties, so it throws at the emptiness check; both
paths are the same error here. -/
def normOneGroupItem (item : Jx) : Except String MetadataGroupItem :=
  match item with
  | .jobj kvs =>
    let name := match jxLookup kvs "name" with | some (.jstr s) => jsTrim s | _ => ""
    let value := match jxLookup kvs "value" with | some (.jstr s) => jsTrim s | _ => ""
    let ty := match jxLookup kvs "type" with | some (.jstr s) => s | _ => "input"
    if name = "" ∨ value = "" then .error "metadata groups: name and value required"
    else .ok { name := name, type := ty, value := value }
  | _ => .error "metadata groups: name and value required"

/-- Sequential validation of a `groups` array, mirroring the source loop:
the first invalid element aborts the whole run. -/
def normGroupsList : List Jx → Except String (List MetadataGroupItem)
  | [] => .ok []
  | it :: rest =>
    match normOneGroupItem it with
    | .error e => .error e
    | .ok g =>
      match normGroupsList rest with
      | .error e => .error e
      | .ok gs => .ok (g :: gs)

/-- normalizeMetadataGroups from src/utils/multipart.ts: when `groups` is
not an array the result is the empty list; otherwise every element is
validated and any failure rejects the whole payload. -/
def normalizeMetadataGroups (metadata : List (String × Jx)) :
    Except String (List MetadataGroupItem) :=
  match jxLookup metadata "groups" with
  | some (.jarr items) => normGroupsList items
  | _ => .ok []

/-- C9: parseMultipartNumberField only ever returns integers, yet treats
number and string inputs asymmetrically: a raw non-integer number is
rejected, while a string is parsed by base-10 parseInt of its leading
digits, so "3.7" and "3abc" both yield 3 instead of being rejected. -/
theorem parseMultipartNumberField_integer_asymmetry :
    (∀ (fields : FieldMap) (name : String) (q : ℚ),
      parseMultipartNumberField fields name = some q → q.den = 1)
    ∧ parseMultipartNumberField
        [("providerId", .leaf (.fieldVal (.str "3.7")))] "providerId" = some 3
    ∧ parseMultipartNumberField
        [("providerId", .leaf (.fieldVal (.str "3abc")))] "providerId" = some 3
    ∧ parseMultipartNumberField
        [("providerId", .leaf (.fieldVal (.num (mkRat 37 10))))] "providerId" = none := by
  refine ⟨?_, by decide, by decide, by decide⟩
  intro fields name q h
  unfold parseMultipartNumberField at h
  split at h
  · split_ifs at h with hd
    cases h
    exact hd
  · rename_i s heq
    cases hj : jsParseInt10 (jsTrim s) with
    | none => rw [hj] at h; simp at h
    | some n =>
      rw [hj] at h
      have h2 : ((n : ℚ)) = q := Option.some_inj.mp h
      rw [← h2]
      exact Rat.den_intCast n
  · exact absurd h (by simp)

/-- Witness for C9: the integer-only guarantee applied at a concrete field. -/
theorem parseMultipartNumberField_integer_asymmetry_witness :
    parseMultipartNumberField [("x", .leaf (.fieldVal (.str "42")))] "x" = some 42
    ∧ (42 : ℚ).den = 1 :=
  ⟨by decide,
    parseMultipartNumberField_integer_asymmetry.1
      [("x", .leaf (.fieldVal (.str "42")))] "x" 42 (by decide)⟩

/-- Invalid `groups` entry in the words of the claim: not an object, or its
`name` or `value` is empty after trimming (an absent or non-string property
reads as empty). -/
def badGroupEntry (item : Jx) : Bool :=
  match item with
  | .jobj kvs =>
    decide ((match jxLookup kvs "name" with | some (.jstr s) => jsTrim s | _ => "") = ""
      ∨ (match jxLookup kvs "value" with | some (.jstr s) => jsTrim s | _ => "") = "")
  | _ => true

/-- Helper: one group element fails validation exactly when it is bad. -/
theorem normOneGroupItem_error_iff (it : Jx) :
    (∃ e, normOneGroupItem it = .error e) ↔ badGroupEntry it = true := by
  cases it <;> simp [normOneGroupItem, badGroupEntry]
  case jobj kvs =>
    by_cases hb :
        ((match jxLookup kvs "name" with | some (.jstr s) => jsTrim s | _ => "") = ""
          ∨ (match jxLookup kvs "value" with | some (.jstr s) => jsTrim s | _ => "") = "")
    · simp [hb]
    · simp [hb]

/-- Helper: a bad element anywhere in the list aborts the whole run. -/
theorem normGroupsList_error_of_bad (items : List Jx)
    (h : ∃ it ∈ items, badGroupEntry it = true) :
    ∃ e, normGroupsList items = .error e := by
  induction items with
  | nil => simp at h
  | cons a rest ih =>
    rcases h with ⟨it, hit, hbad⟩
    rcases List.mem_cons.mp hit with rfl | hmem
    · obtain ⟨e, he⟩ := (normOneGroupItem_error_iff it).mpr hbad
      exact ⟨e, by simp [normGroupsList, he]⟩
    · cases ha : normOneGroupItem a with
      | error e => exact ⟨e, by simp [normGroupsList, ha]⟩
      | ok g =>
        obtain ⟨e, he⟩ := ih ⟨it, hmem, hbad⟩
        exact ⟨e, by simp [normGroupsList, ha, he]⟩

/-- Helper: a successful run validated every element and kept them all. -/
theorem normGroupsList_ok (items : List Jx) (gs : List MetadataGroupItem)
    (h : normGroupsList items = .ok gs) :
    (∀ it ∈ items, badGroupEntry it = false) ∧ gs.length = items.length := by
  induction items generalizing gs with
  | nil =>
    simp [normGroupsList] at h
    simp [← h]
  | cons a rest ih =>
    unfold normGroupsList at h
    cases ha : normOneGroupItem a <;> rw [ha] at h
    · exact absurd h (by simp)
    · cases hr : normGroupsList rest <;> rw [hr] at h
      · exact absurd h (by simp)
      · rename_i g tl
        cases h
        obtain ⟨hall, hlen⟩ := ih tl hr
        refine ⟨?_, by simp [hlen]⟩
        intro it hit
        rcases List.mem_cons.mp hit with rfl | hmem
        · by_contra hbad
          obtain ⟨e, he⟩ := (normOneGroupItem_error_iff it).mpr
            (by revert hbad; cases badGroupEntry it <;> simp)
          rw [he] at ha
          exact absurd ha (by simp)
        · exact hall it hmem

/-- C4: when the metadata object carries a `groups` array containing at
least one entry that is not an object or whose name or value is empty after
trimming, normalization rejects the whole payload; and any accepted payload
had every entry valid, with nothing dropped (no partial persistence). -/
theorem normalizeMetadataGroups_all_or_nothing
    (metadata : List (String × Jx)) (items : List Jx)
    (hg : jxLookup metadata "groups" = some (.jarr items)) :
    ((∃ it ∈ items, badGroupEntry it = true) →
      ∃ e, normalizeMetadataGroups metadata = .error e)
    ∧ (∀ gs, normalizeMetadataGroups metadata = .ok gs →
        (∀ it ∈ items, badGroupEntry it = false) ∧ gs.length = items.length) := by
  constructor
  · intro h
    obtain ⟨e, he⟩ := normGroupsList_error_of_bad items h
    exact ⟨e, by simp [normalizeMetadataGroups, hg, he]⟩
  · intro gs h
    rw [normalizeMetadataGroups, hg] at h
    exact normGroupsList_ok items gs h

/-- Witness for C4: a payload whose single group entry has a whitespace
name is rejected outright. -/
theorem normalizeMetadataGroups_all_or_nothing_witness :
    ∃ e, normalizeMetadataGroups
      [("groups", .jarr [.jobj [("name", .jstr " "), ("value", .jstr "v")]])]
      = .error e :=
  (normalizeMetadataGroups_all_or_nothing
      [("groups", .jarr [.jobj [("name", .jstr " "), ("value", .jstr "v")]])]
      [.jobj [("name", .jstr " "), ("value", .jstr "v")]] rfl).1
    ⟨.jobj [("name", .jstr " "), ("value", .jstr "v")], by simp, by decide⟩

/-! Request identity gate (the middleware/auth.ts module of the source:
authToken, requireAuth, requireRoles, requireAdmin). -/

/-- Model of JS `s.toLowerCase()` on the ASCII strings involved here. -/
def jsToLower (s : String) : String :=
  ⟨s.data.map Char.toLower⟩

/-- extractBearerToken from src/utils/jwt.ts: trim the authorization
header, split it on whitespace, require exactly two pieces whose first is
"bearer" case-insensitively, and return the non-empty token piece. -/
def extractBearerToken (authorization : Option String) : Option String :=
  match authorization with
  | none => none
  | some header =>
    match jsSplitWhitespace (jsTrim header) with
    | [scheme, tok] =>
      if jsToLower scheme = "bearer" then
        let t := jsTrim tok
        if t.length > 0 then some t else none
      else none
    | _ => none

/-- Verification of a serialized token string: decode the compact
serialization (the decoder `dec` stands for the library's base64url
parsing, with `none` for a malformed string, which makes the library
verifier throw) and verify the decoded token. -/
def verifyStr (secret alg : String) (now : Nat) (dec : String → Option JwtToken)
    (s : String) : Option AccessTokenPayload :=
  match dec s with
  | none => none
  | some tok => verify secret alg now tok

/-- Request state seen by the preHandler chain: the authorization header
and the `request.user` slot that `authToken` may populate. -/
structure ReqState where
  authorization : Option String
  user : Option AccessTokenPayload
deriving DecidableEq

/-- authToken middleware: extract the bearer token; when present and valid
attach the claim to the request; never reject. -/
def authToken (secret alg : String) (dec : String → Option JwtToken)
    (now : Nat) (rs : ReqState) : ReqState :=
  match extractBearerToken rs.authorization with
  | none => rs
  | some t =>
    match verifyStr secret alg now dec t with
    | none => rs
    | some payload => { rs with user := some payload }

/-- Result of one preHandler: continue with the (possibly updated) request
or stop with a sent reply. -/
inductive StepResult where
  | next (rs : ReqState)
  | replied (status : Nat) (key : String)
deriving DecidableEq

/-- requireAuth middleware: reject with 401 auth.loginRequired when no
claim is attached; never re-verifies the token. -/
def requireAuth (rs : ReqState) : StepResult :=
  match rs.user with
  | none => .replied 401 "auth.loginRequired"
  | some _ => .next rs

/-- requireRoles middleware: compare the attached claim's role (lowered,
absent read as "") against the lowered allowed set; reject with 403
auth.permissionDenied when not allowed. The source reads `request.user!`,
relying on requireAuth having run; an absent user is read as role "". -/
def requireRoles (roles : List String) (rs : ReqState) : StepResult :=
  let set := roles.map jsToLower
  let role := jsToLower (match rs.user with | some u => u.role.getD "" | none => "")
  if set.contains role then .next rs else .replied 403 "auth.permissionDenied"

/-- Fastify preHandler chain: run each step in order, stopping at the
first reply. -/
def runPre (rs : ReqState) : List (ReqState → StepResult) → StepResult
  | [] => .next rs
  | f :: rest =>
    match f rs with
    | .next rs2 => runPre rs2 rest
    | .replied st k => .replied st k

/-- Outcome of the gate in front of a handler. -/
inductive GateOutcome where
  | handlerRuns (rs : ReqState)
  | rejected (status : Nat) (key : String)
deriving DecidableEq

/-- preHandler chain of POST /media/upload:
`[authToken, requireAuth, requireAdmin]` with
`requireAdmin = requireRoles(["admin"])`, applied to a fresh request whose
user slot is empty. -/
def uploadPreHandlers (secret alg : String) (dec : String → Option JwtToken)
    (now : Nat) (authorization : Option String) : GateOutcome :=
  match runPre { authorization := authorization, user := none }
      [fun rs => .next (authToken secret alg dec now rs),
       requireAuth, requireRoles ["admin"]] with
  | .next rs => .handlerRuns rs
  | .replied st k => .rejected st k

/-- Claim attached to a fresh request by the authToken stage alone. -/
def attachedClaim (secret alg : String) (dec : String → Option JwtToken)
    (now : Nat) (authorization : Option String) : Option AccessTokenPayload :=
  (authToken secret alg dec now { authorization := authorization, user := none }).user

/-- C1: the POST /media/upload handler body runs only when a bearer token
from the request's own Authorization header verified successfully and the
attached claim's role is "admin" case-insensitively; a request with no
attached claim is rejected 401 unauthorized, and an attached claim with a
role outside the allowed set is rejected 403 forbidden, before the handler
runs. -/
theorem upload_gate_two_stage (secret alg : String)
    (dec : String → Option JwtToken) (now : Nat)
    (authorization : Option String) :
    (∀ rs, uploadPreHandlers secret alg dec now authorization = .handlerRuns rs →
      ∃ t u, extractBearerToken authorization = some t
        ∧ verifyStr secret alg now dec t = some u
        ∧ jsToLower (u.role.getD "") = "admin"
        ∧ rs.user = some u)
    ∧ (attachedClaim secret alg dec now authorization = none →
        uploadPreHandlers secret alg dec now authorization
          = .rejected 401 "auth.loginRequired")
    ∧ (∀ u, attachedClaim secret alg dec now authorization = some u →
        jsToLower (u.role.getD "") ≠ "admin" →
        uploadPreHandlers secret alg dec now authorization
          = .rejected 403 "auth.permissionDenied") := by
  have hadmin : (["admin"] : List String).map jsToLower = ["admin"] := by decide
  refine ⟨?_, ?_, ?_⟩
  · intro rs h
    unfold uploadPreHandlers at h
    cases hext : extractBearerToken authorization with
    | none =>
      simp [runPre, authToken, hext, requireAuth] at h
    | some t =>
      cases hv : verifyStr secret alg now dec t with
      | none => simp [runPre, authToken, hext, hv, requireAuth] at h
      | some u =>
        by_cases hrole : jsToLower (u.role.getD "") = "admin"
        · refine ⟨t, u, rfl, hv, hrole, ?_⟩
          simp [runPre, authToken, hext, hv, requireAuth, requireRoles,
            hadmin, hrole] at h
          rw [← h]
        · simp [runPre, authToken, hext, hv, requireAuth, requireRoles,
            hadmin, hrole] at h
  · intro h
    unfold attachedClaim at h
    unfold uploadPreHandlers
    cases hext : extractBearerToken authorization with
    | none => simp [runPre, authToken, hext, requireAuth]
    | some t =>
      cases hv : verifyStr secret alg now dec t with
      | none => simp [runPre, authToken, hext, hv, requireAuth]
      | some u => simp [authToken, hext, hv] at h
  · intro u h hrole
    unfold attachedClaim at h
    unfold uploadPreHandlers
    cases hext : extractBearerToken authorization with
    | none => simp [authToken, hext] at h
    | some t =>
      cases hv : verifyStr secret alg now dec t with
      | none => simp [authToken, hext, hv] at h
      | some u2 =>
        have hu : u2 = u := by simpa [authToken, hext, hv] using h
        subst hu
        simp [runPre, authToken, hext, hv, requireAuth, requireRoles,
          hadmin, hrole]

/-- Witness for C1: a concrete request whose valid token carries role
"Admin" passes the whole gate. -/
theorem upload_gate_two_stage_witness :
    ∃ t u, extractBearerToken (some "Bearer tok") = some t
      ∧ verifyStr "k" "HS256" 10
          (fun s => if s = "tok"
            then some (sign "k" "HS256" 30 0 "u7" (some "Admin") none none)
            else none) t = some u
      ∧ jsToLower (u.role.getD "") = "admin"
      ∧ ({ authorization := some "Bearer tok",
           user := some { sub := "u7", role := some "Admin", username := none,
                          iat := some 0, exp := some 1800 } } : ReqState).user
          = some u :=
  (upload_gate_two_stage "k" "HS256"
      (fun s => if s = "tok"
        then some (sign "k" "HS256" 30 0 "u7" (some "Admin") none none)
        else none) 10 (some "Bearer tok")).1
    { authorization := some "Bearer tok",
      user := some { sub := "u7", role := some "Admin", username := none,
                     iat := some 0, exp := some 1800 } }
    (by decide)

/-! Multipart ingestion collector (collectPartsFromMultipart in
src/utils/multipart.ts). -/

/-- Model of JS `s.startsWith(pre)`. -/
def jsStartsWith (s pre : String) : Bool :=
  decide (s.data.take pre.data.length = pre.data)

/-- Model of JS `s.slice(n)` for a non-negative start index. -/
def jsSliceFrom (s : String) (n : Nat) : String :=
  ⟨s.data.drop n⟩

/-- Model of JS `s.slice(0, n)`. -/
def jsSliceTo (s : String) (n : Nat) : String :=
  ⟨s.data.take n⟩

/-- One part of the multipart stream as yielded by `request.parts()`. -/
inductive RawPart where
  | field (fieldname : Option String) (value : FieldValue)
  | file (fieldname : Option String) (filename : Option String)
      (mimetype : Option String) (buffer : List Nat) (fields : FieldMap)
deriving DecidableEq

/-- Collected file part: payload read into memory, declared filename and
MIME type (defaulted), and the part's own fields object. -/
structure CollectedFilePart where
  buffer : List Nat
  filename : String
  mimetype : String
  fields : FieldMap
deriving DecidableEq

/-- One step of mergePartFieldsInto: a part (or the first element of an
array of parts) carrying a `value` is reshaped into `{type: "field",
value}` and written into the target; entries without a value are skipped. -/
def mergeOnePartField (target : FieldMap) (kv : String × PartVal) : FieldMap :=
  match kv.2 with
  | .arr (.fieldVal v :: _) => jsObjSet target kv.1 (.leaf (.fieldVal v))
  | .arr _ => target
  | .leaf (.fieldVal v) => jsObjSet target kv.1 (.leaf (.fieldVal v))
  | .leaf .fileVal => target

/-- mergePartFieldsInto from src/utils/multipart.ts: fold every entry of
the source fields object into the target. -/
def mergePartFieldsInto (target : FieldMap) (source : FieldMap) : FieldMap :=
  source.foldl mergeOnePartField target

/-- JS `Map.set` on an insertion-ordered association list: replaces the
value in place when the key exists, appends otherwise. -/
def jsMapSet (m : List (Nat × CollectedFilePart)) (k : Nat)
    (v : CollectedFilePart) : List (Nat × CollectedFilePart) :=
  if m.any (fun p => p.1 = k) then
    m.map (fun p => if p.1 = k then (k, v) else p)
  else m ++ [(k, v)]

/-- Index of an indexed-convention file fieldname: the name starts with
"file_" and `parseInt` of the remainder is a number that is not NaN and is
non-negative. -/
def indexedFileIdx (fn : String) : Option Nat :=
  if jsStartsWith fn "file_" then
    match jsParseInt10 (jsSliceFrom fn 5) with
    | some i => if 0 ≤ i then some i.toNat else none
    | none => none
  else none

/-- Collector fold state: the consolidated fields object, the
flat-convention files in arrival order, and the indexed files keyed by
index in a JS Map. -/
structure CollectState where
  fields : FieldMap
  files : List CollectedFilePart
  filesByIndex : List (Nat × CollectedFilePart)
deriving DecidableEq

/-- Body of the `for await` loop of collectPartsFromMultipart: a named
field part is recorded in the fields object; a file part is buffered,
then either stored under its index (indexed convention) or appended to the
flat list with its part fields merged into the fields object. -/
def collectStep (st : CollectState) (p : RawPart) : CollectState :=
  match p with
  | .field fieldname value =>
    match fieldname with
    | some name =>
      { st with fields := jsObjSet st.fields name (.leaf (.fieldVal value)) }
    | none => st
  | .file fieldname filename mimetype buffer pfields =>
    let entry : CollectedFilePart :=
      { buffer := buffer, filename := filename.getD "unknown",
        mimetype := mimetype.getD "application/octet-stream",
        fields := pfields }
    match indexedFileIdx (fieldname.getD "") with
    | some i => { st with filesByIndex := jsMapSet st.filesByIndex i entry }
    | none =>
      { st with files := st.files ++ [entry],
                fields := mergePartFieldsInto st.fields pfields }

/-- Model of `Array.from(map.entries()).sort((a, b) => a[0] - b[0])`: on
the map's distinct keys any comparison sort produces the unique
key-ascending permutation, here realized as insertion sort. -/
def sortByKey (l : List (Nat × CollectedFilePart)) :
    List (Nat × CollectedFilePart) :=
  l.insertionSort (fun a b => a.1 ≤ b.1)

/-- collectPartsFromMultipart from src/utils/multipart.ts: fold the parts
stream, then emit the indexed files sorted by index ascending when any
indexed file was seen, otherwise the flat files in arrival order. -/
def collectPartsFromMultipart (parts : List RawPart) :
    FieldMap × List CollectedFilePart :=
  let st := parts.foldl collectStep { fields := [], files := [], filesByIndex := [] }
  if st.filesByIndex.isEmpty then (st.fields, st.files)
  else (st.fields, (sortByKey st.filesByIndex).map (fun p => p.2))

/-- Fields object produced by collection for a given parts stream. -/
def collectedFields (parts : List RawPart) : FieldMap :=
  (collectPartsFromMultipart parts).1

/-- File list produced by collection for a given parts stream. -/
def collectedFiles (parts : List RawPart) : List CollectedFilePart :=
  (collectPartsFromMultipart parts).2

/-! Upload handler (doUpload in src/api/v1/endpoints/media.ts) and its
environment of external collaborators. Translation keys passed through
getMsg are modelled as the keys themselves. -/

/-- Live storage provider as returned by `getStorageInfo` (the SDK
ProviderInfo; the optional chain `products?.PDP?.data?.serviceURL` is
flattened into one optional URL). -/
structure Provider where
  id : Int
  name : String
  description : String
  active : Bool
  serviceProvider : String
  pdpServiceURL : Option String
deriving DecidableEq

/-- Persisted provider snapshot produced by serializeProviderInfo. -/
structure ProviderSnapshot where
  id : Int
  name : String
  description : String
  isActive : Bool
  serviceProvider : String
  pdpServiceURL : String
deriving DecidableEq

/-- serializeProviderInfo from src/api/v1/endpoints/media.ts. -/
def serializeProviderInfo (p : Provider) : ProviderSnapshot :=
  { id := p.id, name := p.name, description := p.description,
    isActive := p.active, serviceProvider := p.serviceProvider,
    pdpServiceURL := p.pdpServiceURL.getD "" }

/-- Configured MIME allow-list: the wildcard "*" or an array of types. -/
inductive AllowedTypes where
  | star
  | list (ts : List String)
deriving DecidableEq

/-- Configuration values read by the handler. -/
structure Settings where
  UPLOAD_MAX_FILES : Nat
  UPLOAD_MAX_FILE_SIZE_KB : Nat
  UPLOAD_ALLOWED_FILE_TYPES : AllowedTypes
  SYNAPSE_FORCE_CREATE_DATA_SET : Bool
deriving DecidableEq

/-- isAllowedMime from src/api/v1/endpoints/media.ts: wildcard accepts
everything, an array accepts a case-insensitive match. -/
def isAllowedMime (s : Settings) (mime : String) : Bool :=
  match s.UPLOAD_ALLOWED_FILE_TYPES with
  | .star => true
  | .list ts => ts.any (fun t => jsToLower t = jsToLower mime)

/-- Error surfaced by a storage-network call: its message and, when the
error's `cause` is itself an Error, that cause's message. -/
structure SynapseError where
  message : String
  cause : Option String
deriving DecidableEq

/-- Diagnostic detail attached to the 502 upload-failure condition. -/
structure ErrDetail where
  reason : String
  cause : Option String
deriving DecidableEq

/-- Upload context delivered by `synapse.storage.createContext`; its
`dataSetId` is read after all uploads of the batch resolve. -/
structure SynapseContext where
  dataSetId : Option Int
deriving DecidableEq

/-- External collaborators of one doUpload run: storage client
availability, the JS JSON parser, the user lookup, the live provider
directory, context creation per provider id, and the per-file upload
results (indexed by file position; `Except.error` models a rejected
upload promise). -/
structure Env where
  synapseAvailable : Bool
  jsonParse : String → Option Jx
  userExists : Bool
  userId : Int
  providers : List Provider
  createContext : ℚ → Except SynapseError SynapseContext
  upload : Nat → Except SynapseError String

/-- Persisted File Record as created by `prisma.file.create` (metadata
`none` is the empty object, `some gs` is `{groups: gs}`). -/
structure FileRecord where
  name : String
  file_type : String
  metadata : Option (List MetadataGroupItem)
  uploader_id : Int
  permission : String
  cost : Nat
  synapse_index_id : String
  synapse_data_set_id : Option Int
  storage_id : ℚ
  storage_info : ProviderSnapshot
deriving DecidableEq

/-- Observable side effects of a doUpload run, in order: the uploader
lookup, the provider-directory fetch, the upload-context creation, each
file upload issued to the storage network, and each record creation. -/
inductive Ev where
  | userLookup
  | getStorageInfo
  | createContext (providerId : ℚ)
  | uploadCall (i : Nat)
  | fileCreate (r : FileRecord)
deriving DecidableEq

/-- Result reported to the caller: 201 with the created records, or a
thrown error condition (status, message key, optional diagnostic detail). -/
inductive UploadOutcome where
  | created (records : List FileRecord)
  | failure (status : Nat) (key : String) (detail : Option ErrDetail)
deriving DecidableEq

/-- Per-file validation loop of doUpload: size ceiling first, then MIME
allow-list, first failure wins. -/
def perFileCheck (s : Settings) : List CollectedFilePart → Option String
  | [] => none
  | f :: rest =>
    if f.buffer.length > s.UPLOAD_MAX_FILE_SIZE_KB * 1024 then
      some "media.fileTooLarge"
    else if ¬ isAllowedMime s (jsTrim f.mimetype) then
      some "media.fileTypeNotAllowed"
    else perFileCheck s rest

/-- Lowest-index failing upload of the batch, the rejection that
`Promise.all` surfaces in this deterministic model. -/
def firstUploadError (env : Env) (n : Nat) : Option SynapseError :=
  (List.range n).findSome?
    (fun i => match env.upload i with | .error e => some e | .ok _ => none)

/-- Record built for file `i` of the batch: display name from the
indexed `name_i` field or the part's own `name` field or the original
filename (truncated to 255), MIME type trimmed and truncated to 128,
per-file metadata in the indexed convention (silently emptied when its
normalization fails) or the batch-level default otherwise. -/
def uploadRecord (env : Env) (fields : FieldMap) (isIndexedFormat : Bool)
    (defaultMetadataJson : Option (List MetadataGroupItem)) (pid : ℚ)
    (snapshot : ProviderSnapshot) (dataSetId : Option Int)
    (i : Nat) (f : CollectedFilePart) : FileRecord :=
  let customName := if isIndexedFormat
    then parseMultipartStringField fields ("name_" ++ toString i)
    else parseMultipartStringField f.fields "name"
  let filename := match customName with
    | some n => jsSliceTo n 255
    | none => jsSliceTo f.filename 255
  let fileMetadata : Option (List MetadataGroupItem) :=
    if isIndexedFormat then
      match normalizeMetadataGroups
          (parseMultipartMetadata env.jsonParse fields ("metadata_" ++ toString i)) with
      | .ok gs => if gs.isEmpty then none else some gs
      | .error _ => none
    else defaultMetadataJson
  { name := filename,
    file_type := jsSliceTo (jsTrim f.mimetype) 128,
    metadata := fileMetadata,
    uploader_id := env.userId,
    permission := "public",
    cost := 0,
    synapse_index_id := (env.upload i).toOption.getD "",
    synapse_data_set_id := dataSetId,
    storage_id := pid,
    storage_info := snapshot }

/-- Storage phase of doUpload: one context creation for the batch, all
uploads issued against it, 502 with the triggering error as detail when
the context creation or any upload rejects, record creation per file only
after every upload resolved. -/
def doUploadStorage (env : Env) (fields : FieldMap)
    (files : List CollectedFilePart) (isIndexedFormat : Bool)
    (defaultMetadataJson : Option (List MetadataGroupItem)) (pid : ℚ)
    (provider : Provider) : UploadOutcome × List Ev :=
  let base : List Ev := [.userLookup, .getStorageInfo, .createContext pid]
  match env.createContext pid with
  | .error err =>
    (.failure 502 "media.uploadFailed"
        (some { reason := err.message, cause := err.cause }), base)
  | .ok ctx =>
    let uploadEvs := (List.range files.length).map Ev.uploadCall
    match firstUploadError env files.length with
    | some err =>
      (.failure 502 "media.uploadFailed"
          (some { reason := err.message, cause := err.cause }),
        base ++ uploadEvs)
    | none =>
      let records := ((List.range files.length).zip files).map
        (fun p => uploadRecord env fields isIndexedFormat defaultMetadataJson
          pid (serializeProviderInfo provider) ctx.dataSetId p.1 p.2)
      (.created records, base ++ uploadEvs ++ records.map Ev.fileCreate)

/-- Activity check on the resolved provider: reject when it is not marked
active, else enter the storage phase. -/
def doUploadActive (env : Env) (fields : FieldMap)
    (files : List CollectedFilePart) (isIndexedFormat : Bool)
    (defaultMetadataJson : Option (List MetadataGroupItem)) (pid : ℚ)
    (provider : Provider) : UploadOutcome × List Ev :=
  if ¬ provider.active then
    (.failure 400 "media.providerInvalidOrInactive" none,
      [.userLookup, .getStorageInfo])
  else
    doUploadStorage env fields files isIndexedFormat
      defaultMetadataJson pid provider

/-- Provider resolution of doUpload: the freshly fetched directory is
searched for the chosen id; a missing provider is rejected before any
upload call. -/
def doUploadProvider (env : Env) (fields : FieldMap)
    (files : List CollectedFilePart) (isIndexedFormat : Bool)
    (defaultMetadataJson : Option (List MetadataGroupItem)) (pid : ℚ) :
    UploadOutcome × List Ev :=
  match env.providers.find? (fun p => decide ((p.id : ℚ) = pid)) with
  | none =>
    (.failure 400 "media.providerInvalidOrInactive" none,
      [.userLookup, .getStorageInfo])
  | some provider =>
    doUploadActive env fields files isIndexedFormat
      defaultMetadataJson pid provider

/-- Resolution phase of doUpload: uploader lookup by the claim's subject,
required integer providerId, then provider resolution. -/
def doUploadResolved (env : Env) (fields : FieldMap)
    (files : List CollectedFilePart) (isIndexedFormat : Bool)
    (defaultMetadataJson : Option (List MetadataGroupItem)) :
    UploadOutcome × List Ev :=
  if ¬ env.userExists then
    (.failure 401 "auth.userNotFound" none, [.userLookup])
  else
    match parseMultipartNumberField fields "providerId" with
    | none => (.failure 400 "media.providerIdRequired" none, [.userLookup])
    | some pid =>
      doUploadProvider env fields files isIndexedFormat
        defaultMetadataJson pid

/-- doUpload from src/api/v1/endpoints/media.ts: storage-client
availability, multipart collection, file-count and per-file validation,
indexed-format detection via the `name_0`/`metadata_0` keys, batch
metadata normalization (failure rejected only in the flat convention),
then resolution and storage. Returns the outcome and the ordered trace of
external side effects. -/
def doUpload (s : Settings) (env : Env) (parts : List RawPart) :
    UploadOutcome × List Ev :=
  if ¬ env.synapseAvailable then
    (.failure 503 "media.storageUnavailable" none, [])
  else
    let fields := collectedFields parts
    let files := collectedFiles parts
    if files.length = 0 then
      (.failure 400 "media.fileRequired" none, [])
    else if files.length > s.UPLOAD_MAX_FILES then
      (.failure 400 "media.fileCountExceeded" none, [])
    else
      match perFileCheck s files with
      | some key => (.failure 400 key none, [])
      | none =>
        let isIndexedFormat :=
          jsObjHas fields "name_0" || jsObjHas fields "metadata_0"
        match normalizeMetadataGroups
            (parseMultipartMetadata env.jsonParse fields "metadata") with
        | .error _ =>
          if isIndexedFormat then
            doUploadResolved env fields files isIndexedFormat none
          else (.failure 400 "media.metadataNameValueRequired" none, [])
        | .ok gs =>
          doUploadResolved env fields files isIndexedFormat
            (if gs.isEmpty then none else some gs)

/-- Records carried by a created outcome (empty for a failure). -/
def createdRecords : UploadOutcome → List FileRecord
  | .created rs => rs
  | .failure _ _ _ => []

/-- Helper: when no upload of the batch failed, every issued upload
resolved with a content identifier. -/
theorem firstUploadError_none_ok (env : Env) (n : Nat)
    (h : firstUploadError env n = none) (i : Nat) (hi : i < n) :
    ∃ cid, env.upload i = .ok cid := by
  unfold firstUploadError at h
  rw [List.findSome?_eq_none_iff] at h
  have hx := h i (List.mem_range.mpr hi)
  cases hu : env.upload i with
  | ok cid => exact ⟨cid, rfl⟩
  | error e => rw [hu] at hx; exact absurd hx (by simp)

/-- Helper: the error surfaced for a failed batch is the error of one of
the issued uploads. -/
theorem firstUploadError_some_exists (env : Env) (n : Nat) (err : SynapseError)
    (h : firstUploadError env n = some err) :
    ∃ j, j < n ∧ env.upload j = .error err := by
  unfold firstUploadError at h
  obtain ⟨j, hj, hf⟩ := List.exists_of_findSome?_eq_some h
  refine ⟨j, List.mem_range.mp hj, ?_⟩
  cases hu : env.upload j with
  | ok cid => rw [hu] at hf; exact absurd hf (by simp)
  | error e => rw [hu] at hf; simp at hf; rw [hf]

/-- Helper: outcome/trace shapes of the storage phase. -/
theorem doUploadStorage_shape (env : Env) (fields : FieldMap)
    (files : List CollectedFilePart) (isIdx : Bool)
    (dm : Option (List MetadataGroupItem)) (pid : ℚ) (provider : Provider) :
    (∃ (err : SynapseError), doUploadStorage env fields files isIdx dm pid provider
        = (.failure 502 "media.uploadFailed"
            (some { reason := err.message, cause := err.cause }),
          [.userLookup, .getStorageInfo, .createContext pid]))
    ∨ (∃ (err : SynapseError), firstUploadError env files.length = some err
        ∧ doUploadStorage env fields files isIdx dm pid provider
          = (.failure 502 "media.uploadFailed"
              (some { reason := err.message, cause := err.cause }),
            [.userLookup, .getStorageInfo, .createContext pid]
              ++ (List.range files.length).map Ev.uploadCall))
    ∨ (∃ (records : List FileRecord), firstUploadError env files.length = none
        ∧ doUploadStorage env fields files isIdx dm pid provider
          = (.created records,
            [.userLookup, .getStorageInfo, .createContext pid]
              ++ (List.range files.length).map Ev.uploadCall
              ++ records.map Ev.fileCreate)) := by
  cases hc : env.createContext pid with
  | error err =>
    refine Or.inl ⟨err, ?_⟩
    simp [doUploadStorage, hc]
  | ok ctx =>
    cases he : firstUploadError env files.length with
    | some err =>
      refine Or.inr (Or.inl ⟨err, rfl, ?_⟩)
      simp [doUploadStorage, hc, he]
    | none =>
      refine Or.inr (Or.inr ⟨((List.range files.length).zip files).map
        (fun p => uploadRecord env fields isIdx dm pid
          (serializeProviderInfo provider) ctx.dataSetId p.1 p.2), rfl, ?_⟩)
      simp [doUploadStorage, hc, he]

/-- Helper: outcome/trace shapes from provider resolution onwards. -/
theorem doUploadProvider_shape (env : Env) (fields : FieldMap)
    (files : List CollectedFilePart) (isIdx : Bool)
    (dm : Option (List MetadataGroupItem)) (pid : ℚ) :
    (∃ (key : String), doUploadProvider env fields files isIdx dm pid
        = (.failure 400 key none, [.userLookup, .getStorageInfo]))
    ∨ (∃ (err : SynapseError), doUploadProvider env fields files isIdx dm pid
        = (.failure 502 "media.uploadFailed"
            (some { reason := err.message, cause := err.cause }),
          [.userLookup, .getStorageInfo, .createContext pid]))
    ∨ (∃ (err : SynapseError), firstUploadError env files.length = some err
        ∧ doUploadProvider env fields files isIdx dm pid
          = (.failure 502 "media.uploadFailed"
              (some { reason := err.message, cause := err.cause }),
            [.userLookup, .getStorageInfo, .createContext pid]
              ++ (List.range files.length).map Ev.uploadCall))
    ∨ (∃ (records : List FileRecord), firstUploadError env files.length = none
        ∧ doUploadProvider env fields files isIdx dm pid
          = (.created records,
            [.userLookup, .getStorageInfo, .createContext pid]
              ++ (List.range files.length).map Ev.uploadCall
              ++ records.map Ev.fileCreate)) := by
  cases hf : env.providers.find? (fun p => decide ((p.id : ℚ) = pid)) with
  | none =>
    refine Or.inl ⟨"media.providerInvalidOrInactive", ?_⟩
    simp [doUploadProvider, hf]
  | some provider =>
    have heq : doUploadProvider env fields files isIdx dm pid
        = doUploadActive env fields files isIdx dm pid provider := by
      simp [doUploadProvider, hf]
    cases hac : provider.active with
    | false =>
      refine Or.inl ⟨"media.providerInvalidOrInactive", ?_⟩
      rw [heq]
      simp [doUploadActive, hac]
    | true =>
      have heq2 : doUploadActive env fields files isIdx dm pid provider
          = doUploadStorage env fields files isIdx dm pid provider := by
        simp [doUploadActive, hac]
      rcases doUploadStorage_shape env fields files isIdx dm pid provider with
        ⟨err, h⟩ | ⟨err, he, h⟩ | ⟨records, he, h⟩
      · exact Or.inr (Or.inl ⟨err, (heq.trans heq2).trans h⟩)
      · exact Or.inr (Or.inr (Or.inl ⟨err, he, (heq.trans heq2).trans h⟩))
      · exact Or.inr (Or.inr (Or.inr ⟨records, he, (heq.trans heq2).trans h⟩))

/-- Helper: exhaustive outcome/trace shapes of the resolution and storage
phases. -/
theorem doUploadResolved_shape (env : Env) (fields : FieldMap)
    (files : List CollectedFilePart) (isIdx : Bool)
    (dm : Option (List MetadataGroupItem)) :
    (∃ (st : Nat) (key : String), doUploadResolved env fields files isIdx dm
        = (.failure st key none, [.userLookup]))
    ∨ (∃ (st : Nat) (key : String), doUploadResolved env fields files isIdx dm
        = (.failure st key none, [.userLookup, .getStorageInfo]))
    ∨ (∃ (pid : ℚ) (err : SynapseError), doUploadResolved env fields files isIdx dm
        = (.failure 502 "media.uploadFailed"
            (some { reason := err.message, cause := err.cause }),
          [.userLookup, .getStorageInfo, .createContext pid]))
    ∨ (∃ (pid : ℚ) (err : SynapseError), firstUploadError env files.length = some err
        ∧ doUploadResolved env fields files isIdx dm
          = (.failure 502 "media.uploadFailed"
              (some { reason := err.message, cause := err.cause }),
            [.userLookup, .getStorageInfo, .createContext pid]
              ++ (List.range files.length).map Ev.uploadCall))
    ∨ (∃ (pid : ℚ) (records : List FileRecord), firstUploadError env files.length = none
        ∧ doUploadResolved env fields files isIdx dm
          = (.created records,
            [.userLookup, .getStorageInfo, .createContext pid]
              ++ (List.range files.length).map Ev.uploadCall
              ++ records.map Ev.fileCreate)) := by
  cases hue : env.userExists with
  | false =>
    refine Or.inl ⟨401, "auth.userNotFound", ?_⟩
    simp [doUploadResolved, hue]
  | true =>
    cases hp : parseMultipartNumberField fields "providerId" with
    | none =>
      refine Or.inl ⟨400, "media.providerIdRequired", ?_⟩
      simp [doUploadResolved, hue, hp]
    | some pid =>
      have heq : doUploadResolved env fields files isIdx dm
          = doUploadProvider env fields files isIdx dm pid := by
        simp [doUploadResolved, hue, hp]
      rcases doUploadProvider_shape env fields files isIdx dm pid with
        ⟨key, h⟩ | ⟨err, h⟩ | ⟨err, he, h⟩ | ⟨records, he, h⟩
      · exact Or.inr (Or.inl ⟨400, key, heq.trans h⟩)
      · exact Or.inr (Or.inr (Or.inl ⟨pid, err, heq.trans h⟩))
      · exact Or.inr (Or.inr (Or.inr (Or.inl ⟨pid, err, he, heq.trans h⟩)))
      · exact Or.inr (Or.inr (Or.inr (Or.inr ⟨pid, records, he, heq.trans h⟩)))

/-- Helper: lifting the resolved-phase shapes through doUpload. -/
theorem doUpload_shape_of_resolved (s : Settings) (env : Env)
    (parts : List RawPart) (isIdx : Bool)
    (dm : Option (List MetadataGroupItem))
    (heq : doUpload s env parts
      = doUploadResolved env (collectedFields parts) (collectedFiles parts) isIdx dm) :
    (∃ (st : Nat) (key : String) (d : Option ErrDetail),
        doUpload s env parts = (.failure st key d, []))
    ∨ (∃ (st : Nat) (key : String),
        doUpload s env parts = (.failure st key none, [.userLookup]))
    ∨ (∃ (st : Nat) (key : String), doUpload s env parts
        = (.failure st key none, [.userLookup, .getStorageInfo]))
    ∨ (∃ (pid : ℚ) (err : SynapseError), doUpload s env parts
        = (.failure 502 "media.uploadFailed"
            (some { reason := err.message, cause := err.cause }),
          [.userLookup, .getStorageInfo, .createContext pid]))
    ∨ (∃ (pid : ℚ) (err : SynapseError),
        firstUploadError env (collectedFiles parts).length = some err
        ∧ doUpload s env parts
          = (.failure 502 "media.uploadFailed"
              (some { reason := err.message, cause := err.cause }),
            [.userLookup, .getStorageInfo, .createContext pid]
              ++ (List.range (collectedFiles parts).length).map Ev.uploadCall))
    ∨ (∃ (pid : ℚ) (records : List FileRecord),
        firstUploadError env (collectedFiles parts).length = none
        ∧ doUpload s env parts
          = (.created records,
            [.userLookup, .getStorageInfo, .createContext pid]
              ++ (List.range (collectedFiles parts).length).map Ev.uploadCall
              ++ records.map Ev.fileCreate)) := by
  rcases doUploadResolved_shape env (collectedFields parts) (collectedFiles parts)
      isIdx dm with
    ⟨st, key, h⟩ | ⟨st, key, h⟩ | ⟨pid, err, h⟩ | ⟨pid, err, he, h⟩
      | ⟨pid, records, he, h⟩
  · exact Or.inr (Or.inl ⟨st, key, heq.trans h⟩)
  · exact Or.inr (Or.inr (Or.inl ⟨st, key, heq.trans h⟩))
  · exact Or.inr (Or.inr (Or.inr (Or.inl ⟨pid, err, heq.trans h⟩)))
  · exact Or.inr (Or.inr (Or.inr (Or.inr (Or.inl ⟨pid, err, he, heq.trans h⟩))))
  · exact Or.inr (Or.inr (Or.inr (Or.inr (Or.inr ⟨pid, records, he, heq.trans h⟩))))

/-- Helper: exhaustive outcome/trace shapes of a doUpload run. -/
theorem doUpload_shape (s : Settings) (env : Env) (parts : List RawPart) :
    (∃ (st : Nat) (key : String) (d : Option ErrDetail),
        doUpload s env parts = (.failure st key d, []))
    ∨ (∃ (st : Nat) (key : String),
        doUpload s env parts = (.failure st key none, [.userLookup]))
    ∨ (∃ (st : Nat) (key : String), doUpload s env parts
        = (.failure st key none, [.userLookup, .getStorageInfo]))
    ∨ (∃ (pid : ℚ) (err : SynapseError), doUpload s env parts
        = (.failure 502 "media.uploadFailed"
            (some { reason := err.message, cause := err.cause }),
          [.userLookup, .getStorageInfo, .createContext pid]))
    ∨ (∃ (pid : ℚ) (err : SynapseError),
        firstUploadError env (collectedFiles parts).length = some err
        ∧ doUpload s env parts
          = (.failure 502 "media.uploadFailed"
              (some { reason := err.message, cause := err.cause }),
            [.userLookup, .getStorageInfo, .createContext pid]
              ++ (List.range (collectedFiles parts).length).map Ev.uploadCall))
    ∨ (∃ (pid : ℚ) (records : List FileRecord),
        firstUploadError env (collectedFiles parts).length = none
        ∧ doUpload s env parts
          = (.created records,
            [.userLookup, .getStorageInfo, .createContext pid]
              ++ (List.range (collectedFiles parts).length).map Ev.uploadCall
              ++ records.map Ev.fileCreate)) := by
  by_cases h1 : env.synapseAvailable
  case neg => exact Or.inl ⟨503, "media.storageUnavailable", none, by simp [doUpload, h1]⟩
  case pos =>
  by_cases h2 : (collectedFiles parts).length = 0
  · exact Or.inl ⟨400, "media.fileRequired", none, by simp [doUpload, h1, h2]⟩
  by_cases h3 : (collectedFiles parts).length > s.UPLOAD_MAX_FILES
  · exact Or.inl ⟨400, "media.fileCountExceeded", none, by simp [doUpload, h1, h2, h3]⟩
  cases h4 : perFileCheck s (collectedFiles parts) with
  | some key => exact Or.inl ⟨400, key, none, by simp [doUpload, h1, h2, h3, h4]⟩
  | none =>
  cases h5 : normalizeMetadataGroups
      (parseMultipartMetadata env.jsonParse (collectedFields parts) "metadata") with
  | error e =>
    by_cases h6 : (jsObjHas (collectedFields parts) "name_0"
        || jsObjHas (collectedFields parts) "metadata_0") = true
    · exact doUpload_shape_of_resolved s env parts true none
        (by simp [doUpload, h1, h2, h3, h4, h5, h6])
    · exact Or.inl ⟨400, "media.metadataNameValueRequired", none,
        by simp [doUpload, h1, h2, h3, h4, h5, h6]⟩
  | ok gs =>
    exact doUpload_shape_of_resolved s env parts
      (jsObjHas (collectedFields parts) "name_0"
        || jsObjHas (collectedFields parts) "metadata_0")
      (if gs.isEmpty then none else some gs)
      (by simp [doUpload, h1, h2, h3, h4, h5])

/-- C2: if any single upload of the batch fails, the whole batch fails
with one 502 "upload failed" condition carrying the triggering error (and
its cause when available) as diagnostic detail, and zero File Records are
created; in every run the trace splits into a prefix with no record
creation followed by a suffix with no upload call (storage acknowledgment
strictly precedes record creation), and any record creation implies every
issued upload had resolved successfully. -/
theorem upload_batch_all_or_nothing (s : Settings) (env : Env)
    (parts : List RawPart) :
    ((∃ i e, Ev.uploadCall i ∈ (doUpload s env parts).2
        ∧ env.upload i = .error e) →
      (∃ err : SynapseError,
        (doUpload s env parts).1 = .failure 502 "media.uploadFailed"
            (some { reason := err.message, cause := err.cause })
        ∧ (∃ j, Ev.uploadCall j ∈ (doUpload s env parts).2
            ∧ env.upload j = .error err))
      ∧ (∀ r, Ev.fileCreate r ∉ (doUpload s env parts).2))
    ∧ (∃ tr1 tr2, (doUpload s env parts).2 = tr1 ++ tr2
        ∧ (∀ e ∈ tr1, ∀ r, e ≠ Ev.fileCreate r)
        ∧ (∀ e ∈ tr2, ∀ i, e ≠ Ev.uploadCall i))
    ∧ (∀ r, Ev.fileCreate r ∈ (doUpload s env parts).2 →
        ∀ i, Ev.uploadCall i ∈ (doUpload s env parts).2 →
          ∃ cid, env.upload i = .ok cid) := by
  rcases doUpload_shape s env parts with
    ⟨st, key, d, h⟩ | ⟨st, key, h⟩ | ⟨st, key, h⟩ | ⟨pid, err, h⟩
      | ⟨pid, err, he, h⟩ | ⟨pid, records, he, h⟩
  · refine ⟨?_, ⟨[], [], by simp [h], by simp, by simp⟩, ?_⟩
    · rintro ⟨i, e, hmem, _⟩
      simp [h] at hmem
    · intro r hr
      simp [h] at hr
  · refine ⟨?_, ⟨[.userLookup], [], by simp [h], by simp, by simp⟩, ?_⟩
    · rintro ⟨i, e, hmem, _⟩
      simp [h] at hmem
    · intro r hr
      simp [h] at hr
  · refine ⟨?_, ⟨[.userLookup, .getStorageInfo], [], by simp [h],
      by simp, by simp⟩, ?_⟩
    · rintro ⟨i, e, hmem, _⟩
      simp [h] at hmem
    · intro r hr
      simp [h] at hr
  · refine ⟨?_, ⟨[.userLookup, .getStorageInfo, .createContext pid], [],
      by simp [h], by simp, by simp⟩, ?_⟩
    · rintro ⟨i, e, hmem, _⟩
      simp [h] at hmem
    · intro r hr
      simp [h] at hr
  · obtain ⟨j, hj, hjerr⟩ := firstUploadError_some_exists env _ err he
    refine ⟨?_, ⟨[.userLookup, .getStorageInfo, .createContext pid]
        ++ (List.range (collectedFiles parts).length).map Ev.uploadCall, [],
      by simp [h], ?_, by simp⟩, ?_⟩
    · intro _
      refine ⟨⟨err, by simp [h], ⟨j, ?_, hjerr⟩⟩, ?_⟩
      · rw [h]
        exact List.mem_append_right _
          (List.mem_map_of_mem _ (List.mem_range.mpr hj))
      · intro r hr
        simp [h] at hr
    · intro e hmem r
      simp [List.mem_append, List.mem_map] at hmem
      rcases hmem with hmem | hmem | hmem | ⟨a, _, hmem⟩ <;> subst hmem <;> simp
    · intro r hr
      simp [h] at hr
  · refine ⟨?_, ⟨[.userLookup, .getStorageInfo, .createContext pid]
        ++ (List.range (collectedFiles parts).length).map Ev.uploadCall,
      records.map Ev.fileCreate, by simp [h], ?_, ?_⟩, ?_⟩
    · rintro ⟨i, e, hmem, herr⟩
      rw [h] at hmem
      simp [List.mem_append, List.mem_map, List.mem_range] at hmem
      obtain ⟨cid, hok⟩ := firstUploadError_none_ok env _ he i hmem
      rw [hok] at herr
      exact absurd herr (by simp)
    · intro e hmem r
      simp [List.mem_append, List.mem_map] at hmem
      rcases hmem with hmem | hmem | hmem | ⟨a, _, hmem⟩ <;> subst hmem <;> simp
    · intro e hmem i
      simp [List.mem_map] at hmem
      obtain ⟨r, _, hmem⟩ := hmem
      subst hmem
      simp
    · intro r hr i hi
      rw [h] at hi
      simp [List.mem_append, List.mem_map, List.mem_range] at hi
      exact firstUploadError_none_ok env _ he i hi

/-- Helper: a file violating the size ceiling or the MIME allow-list makes
the per-file validation loop fail. -/
theorem perFileCheck_some_of_bad (s : Settings) (files : List CollectedFilePart)
    (h : ∃ f ∈ files, f.buffer.length > s.UPLOAD_MAX_FILE_SIZE_KB * 1024
        ∨ isAllowedMime s (jsTrim f.mimetype) = false) :
    ∃ key, perFileCheck s files = some key := by
  induction files with
  | nil => simp at h
  | cons a rest ih =>
    by_cases h1 : a.buffer.length > s.UPLOAD_MAX_FILE_SIZE_KB * 1024
    · exact ⟨"media.fileTooLarge", by simp [perFileCheck, h1]⟩
    · by_cases h2 : isAllowedMime s (jsTrim a.mimetype) = false
      · exact ⟨"media.fileTypeNotAllowed", by simp [perFileCheck, h1, h2]⟩
      · have h2t : isAllowedMime s (jsTrim a.mimetype) = true := by
          revert h2; cases isAllowedMime s (jsTrim a.mimetype) <;> simp
        rcases h with ⟨f, hf, hbad⟩
        rcases List.mem_cons.mp hf with rfl | hfm
        · rcases hbad with hb | hb
          · exact absurd hb h1
          · exact absurd hb h2
        · obtain ⟨key, hk⟩ := ih ⟨f, hfm, hbad⟩
          exact ⟨key, by simp [perFileCheck, h1, h2t, hk]⟩

/-- C5: an upload request with zero collected files, or more files than
the configured ceiling, or a file over the size ceiling or with a
disallowed MIME type, is rejected with a 400 condition and an empty
side-effect trace: no provider lookup, no context creation, no upload. -/
theorem upload_validation_rejects_before_storage (s : Settings) (env : Env)
    (parts : List RawPart)
    (havail : env.synapseAvailable = true)
    (hbad : collectedFiles parts = []
      ∨ (collectedFiles parts).length > s.UPLOAD_MAX_FILES
      ∨ ∃ f ∈ collectedFiles parts,
          f.buffer.length > s.UPLOAD_MAX_FILE_SIZE_KB * 1024
          ∨ isAllowedMime s (jsTrim f.mimetype) = false) :
    ∃ key, doUpload s env parts = (.failure 400 key none, []) := by
  by_cases h2 : (collectedFiles parts).length = 0
  · exact ⟨"media.fileRequired", by simp [doUpload, havail, h2]⟩
  · by_cases h3 : (collectedFiles parts).length > s.UPLOAD_MAX_FILES
    · exact ⟨"media.fileCountExceeded", by simp [doUpload, havail, h2, h3]⟩
    · have hex : ∃ f ∈ collectedFiles parts,
          f.buffer.length > s.UPLOAD_MAX_FILE_SIZE_KB * 1024
          ∨ isAllowedMime s (jsTrim f.mimetype) = false := by
        rcases hbad with hb | hb | hb
        · exact absurd (by simp [hb]) h2
        · exact absurd hb h3
        · exact hb
      obtain ⟨key, hk⟩ := perFileCheck_some_of_bad s _ hex
      exact ⟨key, by simp [doUpload, havail, h2, h3, hk]⟩

/-- C6: a request whose providerId matches no provider in the freshly
fetched directory, or only an inactive one, is rejected 400 "provider
invalid or inactive" right after the directory fetch: no upload context is
created and no bytes are uploaded. -/
theorem provider_invalid_or_inactive_rejected (s : Settings) (env : Env)
    (parts : List RawPart) (pid : ℚ)
    (havail : env.synapseAvailable = true)
    (h0 : (collectedFiles parts).length ≠ 0)
    (hc : ¬ (collectedFiles parts).length > s.UPLOAD_MAX_FILES)
    (hf : perFileCheck s (collectedFiles parts) = none)
    (hmeta : (∃ gs, normalizeMetadataGroups
        (parseMultipartMetadata env.jsonParse (collectedFields parts) "metadata")
          = .ok gs)
      ∨ (jsObjHas (collectedFields parts) "name_0"
          || jsObjHas (collectedFields parts) "metadata_0") = true)
    (huser : env.userExists = true)
    (hpid : parseMultipartNumberField (collectedFields parts) "providerId"
      = some pid)
    (hprov : ∀ p, env.providers.find? (fun q => decide ((q.id : ℚ) = pid))
      = some p → p.active = false) :
    doUpload s env parts
      = (.failure 400 "media.providerInvalidOrInactive" none,
        [.userLookup, .getStorageInfo]) := by
  have hres : ∀ (isIdx : Bool) (dm : Option (List MetadataGroupItem)),
      doUploadResolved env (collectedFields parts) (collectedFiles parts) isIdx dm
        = (.failure 400 "media.providerInvalidOrInactive" none,
          [.userLookup, .getStorageInfo]) := by
    intro isIdx dm
    have hprov2 : doUploadProvider env (collectedFields parts)
        (collectedFiles parts) isIdx dm pid
          = (.failure 400 "media.providerInvalidOrInactive" none,
            [.userLookup, .getStorageInfo]) := by
      cases hfind : env.providers.find? (fun q => decide ((q.id : ℚ) = pid)) with
      | none => simp [doUploadProvider, hfind]
      | some p =>
        have hact := hprov p hfind
        simp [doUploadProvider, hfind, doUploadActive, hact]
    simp [doUploadResolved, huser, hpid, hprov2]
  cases hnorm : normalizeMetadataGroups
      (parseMultipartMetadata env.jsonParse (collectedFields parts) "metadata") with
  | error e =>
    have hidx : (jsObjHas (collectedFields parts) "name_0"
        || jsObjHas (collectedFields parts) "metadata_0") = true := by
      rcases hmeta with ⟨gs, hgs⟩ | hidx
      · rw [hnorm] at hgs; exact absurd hgs (by simp)
      · exact hidx
    simp [doUpload, havail, h0, hc, hf, hnorm, hidx, hres]
  | ok gs =>
    simp [doUpload, havail, h0, hc, hf, hnorm, hres]

/-! Concrete fixtures used to exercise the doUpload theorems. -/

/-- Decidable equality for Except values (used to evaluate concrete
storage results). -/
def exceptDecEq {e a : Type} [DecidableEq e] [DecidableEq a] :
    DecidableEq (Except e a)
  | .ok x, .ok y =>
    if h : x = y then isTrue (by rw [h])
    else isFalse (by intro hc; cases hc; exact h rfl)
  | .ok _, .error _ => isFalse (by intro hc; cases hc)
  | .error _, .ok _ => isFalse (by intro hc; cases hc)
  | .error x, .error y =>
    if h : x = y then isTrue (by rw [h])
    else isFalse (by intro hc; cases hc; exact h rfl)

instance {e a : Type} [DecidableEq e] [DecidableEq a] :
    DecidableEq (Except e a) := exceptDecEq

/-- Permissive settings: up to 10 files of up to 10 KB, any MIME type. -/
def sampleSettings : Settings :=
  { UPLOAD_MAX_FILES := 10, UPLOAD_MAX_FILE_SIZE_KB := 10,
    UPLOAD_ALLOWED_FILE_TYPES := .star, SYNAPSE_FORCE_CREATE_DATA_SET := false }

/-- One active provider with id 5. -/
def sampleProvider : Provider :=
  { id := 5, name := "p", description := "", active := true,
    serviceProvider := "sp", pdpServiceURL := some "https://pdp" }

/-- Environment whose second upload of a batch rejects. -/
def failingEnv : Env :=
  { synapseAvailable := true,
    jsonParse := fun _ => none,
    userExists := true,
    userId := 9,
    providers := [sampleProvider],
    createContext := fun _ => .ok { dataSetId := some 7 },
    upload := fun i =>
      if i = 1 then .error { message := "boom", cause := some "io" }
      else .ok "cid0" }

/-- Environment where every storage call succeeds. -/
def workingEnv : Env :=
  { synapseAvailable := true,
    jsonParse := fun _ => none,
    userExists := true,
    userId := 9,
    providers := [sampleProvider],
    createContext := fun _ => .ok { dataSetId := some 7 },
    upload := fun i => .ok ("cid" ++ toString i) }

/-- Two flat-convention file parts plus the provider field. -/
def twoFlatFileParts : List RawPart :=
  [ .file (some "file") (some "a.png") (some "image/png") [1] [],
    .file (some "file") (some "b.png") (some "image/png") [2] [],
    .field (some "providerId") (.str "5") ]

/-- Witness for C2: with the second upload failing, the concrete batch
ends in the 502 condition carrying the triggering error, and no record
creation appears in the trace. -/
theorem upload_batch_all_or_nothing_witness :
    (∃ err : SynapseError,
      (doUpload sampleSettings failingEnv twoFlatFileParts).1
        = .failure 502 "media.uploadFailed"
            (some { reason := err.message, cause := err.cause })
      ∧ (∃ j, Ev.uploadCall j ∈ (doUpload sampleSettings failingEnv twoFlatFileParts).2
          ∧ failingEnv.upload j = .error err))
    ∧ (∀ r, Ev.fileCreate r ∉ (doUpload sampleSettings failingEnv twoFlatFileParts).2) :=
  (upload_batch_all_or_nothing sampleSettings failingEnv twoFlatFileParts).1
    ⟨1, { message := "boom", cause := some "io" }, by decide, by decide⟩

/-- Witness for C5: a request with no file part is rejected with a 400
condition and an empty trace. -/
theorem upload_validation_rejects_before_storage_witness :
    ∃ key, doUpload sampleSettings workingEnv
        [.field (some "providerId") (.str "5")]
      = (.failure 400 key none, []) :=
  upload_validation_rejects_before_storage sampleSettings workingEnv
    [.field (some "providerId") (.str "5")] (by decide) (Or.inl (by decide))

/-- Witness for C6: a providerId matching no directory entry is rejected
400 with only the user lookup and directory fetch in the trace. -/
theorem provider_invalid_or_inactive_rejected_witness :
    doUpload sampleSettings workingEnv
        [ .file (some "file") (some "a.png") (some "image/png") [1] [],
          .field (some "providerId") (.str "6") ]
      = (.failure 400 "media.providerInvalidOrInactive" none,
        [.userLookup, .getStorageInfo]) :=
  provider_invalid_or_inactive_rejected sampleSettings workingEnv
    [ .file (some "file") (some "a.png") (some "image/png") [1] [],
      .field (some "providerId") (.str "6") ] 6
    (by decide) (by decide) (by decide) (by decide)
    (Or.inl ⟨[], by decide⟩) (by decide) (by decide)
    (by
      intro p hp
      have hn : (workingEnv.providers.find?
          (fun q => decide ((q.id : ℚ) = 6))) = none := by decide
      rw [hn] at hp
      exact absurd hp (by simp))

/-- Indexed upload of the C7 scenario: `file_0`, `file_1`, a `name_1`
field set to "custom", the provider field, and nothing else. -/
def indexedNameParts : List RawPart :=
  [ .file (some "file_0") (some "a.png") (some "image/png") [1] [],
    .file (some "file_1") (some "b.png") (some "image/png") [2]
      [("name_1", .leaf (.fieldVal (.str "custom")))],
    .field (some "name_1") (.str "custom"),
    .field (some "providerId") (.str "5") ]

/-- Counterexample for C7: in the scenario file_0, file_1, name_1 =
"custom", two records are created but the display names are the original
filenames; the second record does not use "custom", contradicting the
claim. -/
theorem indexed_name_field_counterexample :
    (createdRecords (doUpload sampleSettings workingEnv indexedNameParts).1).length = 2
    ∧ (createdRecords (doUpload sampleSettings workingEnv indexedNameParts).1).map
        (fun r => r.name) ≠ ["a.png", "custom"] := by
  constructor
  · decide
  · decide

/-- C7 (amended): in that scenario exactly two records are created,
ordered by index, but both use their original filenames (truncated to the
255-character limit), because the per-file name fields only take effect
when a `name_0` or `metadata_0` key is present — the indexed-format
detection does not look at `name_1`. -/
theorem indexed_name_field_amended :
    (createdRecords (doUpload sampleSettings workingEnv indexedNameParts).1).map
        (fun r => r.name) = ["a.png", "b.png"]
    ∧ (jsObjHas (collectedFields indexedNameParts) "name_0"
        || jsObjHas (collectedFields indexedNameParts) "metadata_0") = false
    ∧ ∀ r ∈ createdRecords (doUpload sampleSettings workingEnv indexedNameParts).1,
        r.name.length ≤ 255 := by
  refine ⟨by decide, by decide, ?_⟩
  decide

/-! Specification of the collector's file list, in the words of the C8
claim: when at least one indexed file part is present, the output is the
indexed entries ordered by numeric index ascending (one file per index,
a later part with the same index replacing an earlier one) and
flat-convention files are excluded; otherwise it is the flat-convention
files in arrival order. -/

/-- Entry a file part collects to; `none` for field parts. -/
def fileEntryOf (p : RawPart) : Option CollectedFilePart :=
  match p with
  | .file _ filename mimetype buffer pfields =>
    some { buffer := buffer, filename := filename.getD "unknown",
           mimetype := mimetype.getD "application/octet-stream",
           fields := pfields }
  | .field _ _ => none

/-- Numeric index of an indexed file part; `none` for field parts and
flat-convention file parts. -/
def fileIdxOf (p : RawPart) : Option Nat :=
  match p with
  | .file fieldname _ _ _ _ => indexedFileIdx (fieldname.getD "")
  | .field _ _ => none

/-- Indexed file parts of the stream, paired with their indices, in
arrival order. -/
def indexedPairs (parts : List RawPart) : List (Nat × CollectedFilePart) :=
  parts.filterMap (fun p =>
    match fileIdxOf p, fileEntryOf p with
    | some i, some e => some (i, e)
    | _, _ => none)

/-- Flat-convention file parts of the stream, in arrival order. -/
def flatEntries (parts : List RawPart) : List CollectedFilePart :=
  parts.filterMap (fun p =>
    match fileIdxOf p, fileEntryOf p with
    | none, some e => some e
    | _, _ => none)

/-- Last indexed file part carrying the given index (a later part with
the same index replaces an earlier one). -/
def lastIndexedPair (parts : List RawPart) (i : Nat) :
    Option (Nat × CollectedFilePart) :=
  (indexedPairs parts).foldl (fun acc q => if q.1 = i then some q else acc) none

/-- Entry of the last indexed file part with the given index. -/
def lastEntryFor (parts : List RawPart) (i : Nat) : Option CollectedFilePart :=
  (lastIndexedPair parts i).map (fun q => q.2)

/-- File list in the words of the claim: indexed entries by ascending
index when any indexed part is present (flat parts excluded), else flat
entries in arrival order. -/
def collectFilesSpec (parts : List RawPart) : List CollectedFilePart :=
  if indexedPairs parts = [] then flatEntries parts
  else (((indexedPairs parts).map Prod.fst).dedup.insertionSort (· ≤ ·)).filterMap
    (lastEntryFor parts)

/-- Helper: the collector fold appends exactly the flat entries to the
flat file list. -/
theorem foldl_collectStep_files (parts : List RawPart) :
    ∀ st0 : CollectState,
      (parts.foldl collectStep st0).files = st0.files ++ flatEntries parts := by
  induction parts with
  | nil => intro st0; simp [flatEntries]
  | cons p ps ih =>
    intro st0
    rw [List.foldl_cons, ih]
    cases p with
    | field fn v =>
      cases fn <;>
        simp [collectStep, flatEntries, fileIdxOf, fileEntryOf, List.filterMap_cons]
    | file fn fname mt buf pf =>
      cases hidx : indexedFileIdx (fn.getD "") with
      | some i =>
        simp [collectStep, hidx, flatEntries, fileIdxOf, fileEntryOf,
          List.filterMap_cons]
      | none =>
        simp [collectStep, hidx, flatEntries, fileIdxOf, fileEntryOf,
          List.filterMap_cons]

/-- Helper: the collector fold applies exactly the indexed pairs, in
arrival order, to the JS Map of indexed files. -/
theorem foldl_collectStep_byIndex (parts : List RawPart) :
    ∀ st0 : CollectState,
      (parts.foldl collectStep st0).filesByIndex
        = (indexedPairs parts).foldl
            (fun m q => jsMapSet m q.1 q.2) st0.filesByIndex := by
  induction parts with
  | nil => intro st0; simp [indexedPairs]
  | cons p ps ih =>
    intro st0
    rw [List.foldl_cons, ih]
    cases p with
    | field fn v =>
      cases fn <;>
        simp [collectStep, indexedPairs, fileIdxOf, fileEntryOf, List.filterMap_cons]
    | file fn fname mt buf pf =>
      cases hidx : indexedFileIdx (fn.getD "") with
      | some i =>
        simp [collectStep, hidx, indexedPairs, fileIdxOf, fileEntryOf,
          List.filterMap_cons]
      | none =>
        simp [collectStep, hidx, indexedPairs, fileIdxOf, fileEntryOf,
          List.filterMap_cons]

/-- Lookup by key in an association list (first match). -/
def listLookup (l : List (Nat × CollectedFilePart)) (k : Nat) :
    Option CollectedFilePart :=
  (l.find? (fun q => q.1 == k)).map (fun q => q.2)

/-- Helper: a Map.set whose key misses the head distributes over cons. -/
theorem jsMapSet_cons_ne (p : Nat × CollectedFilePart)
    (t : List (Nat × CollectedFilePart)) (k : Nat) (v : CollectedFilePart)
    (h : ¬ p.1 = k) :
    jsMapSet (p :: t) k v = p :: jsMapSet t k v := by
  unfold jsMapSet
  by_cases ht : t.any (fun q => decide (q.1 = k))
  · simp [List.any_cons, h, ht]
  · simp [List.any_cons, h, ht]

/-- Helper: a Map.set whose key matches the head replaces it in place. -/
theorem jsMapSet_cons_eq (p : Nat × CollectedFilePart)
    (t : List (Nat × CollectedFilePart)) (k : Nat) (v : CollectedFilePart)
    (h : p.1 = k) :
    jsMapSet (p :: t) k v
      = (k, v) :: t.map (fun q => if q.1 = k then (k, v) else q) := by
  unfold jsMapSet
  simp [List.any_cons, h]

/-- Helper: in-place replacement of the pairs keyed `k` does not change
lookups at other keys. -/
theorem listLookup_map_replace (t : List (Nat × CollectedFilePart))
    (k : Nat) (v : CollectedFilePart) (k2 : Nat) (h : k2 ≠ k) :
    listLookup (t.map (fun q => if q.1 = k then (k, v) else q)) k2
      = listLookup t k2 := by
  induction t with
  | nil => rfl
  | cons q t ih =>
    by_cases hq : q.1 = k
    · have hqk : ¬ (q.1 == k2) = true := by simp [hq, Ne.symm h]
      simp only [List.map_cons, if_pos hq, listLookup, List.find?_cons]
      rw [show ((k, v).1 == k2) = false by simp [Ne.symm h]]
      rw [show (q.1 == k2) = false by simp [hq, Ne.symm h]]
      exact ih
    · simp only [List.map_cons, if_neg hq, listLookup, List.find?_cons]
      cases hqk : (q.1 == k2) with
      | true => rfl
      | false => exact ih

/-- Helper: lookup after a Map.set reads the new value at its key and the
old map elsewhere. -/
theorem listLookup_jsMapSet (m : List (Nat × CollectedFilePart)) (k : Nat)
    (v : CollectedFilePart) (k2 : Nat) :
    listLookup (jsMapSet m k v) k2
      = if k2 = k then some v else listLookup m k2 := by
  induction m with
  | nil =>
    unfold jsMapSet listLookup
    by_cases hk : k2 = k
    · simp [hk]
    · simp [List.find?_cons, Ne.symm hk, hk]
  | cons p t ih =>
    by_cases hp : p.1 = k
    · rw [jsMapSet_cons_eq p t k v hp]
      by_cases hk : k2 = k
      · subst hk
        simp [listLookup, List.find?_cons]
      · unfold listLookup
        rw [List.find?_cons, show ((k, v).1 == k2) = false by simp [Ne.symm hk]]
        rw [if_neg hk]
        have := listLookup_map_replace t k v k2 hk
        unfold listLookup at this
        rw [this]
        simp [List.find?_cons, show (p.1 == k2) = false by simp [hp, Ne.symm hk]]
    · rw [jsMapSet_cons_ne p t k v hp]
      by_cases hk2 : k2 = p.1
      · have hne : ¬ k2 = k := by rw [hk2]; exact hp
        unfold listLookup
        rw [List.find?_cons, show (p.1 == k2) = true by simp [hk2]]
        rw [if_neg hne]
        rw [List.find?_cons, show (p.1 == k2) = true by simp [hk2]]
      · unfold listLookup
        rw [List.find?_cons, show (p.1 == k2) = false by simp [Ne.symm hk2]]
        rw [List.find?_cons, show (p.1 == k2) = false by simp [Ne.symm hk2]]
        have := ih
        unfold listLookup at this
        rw [this]

/-- Helper: Map.set keeps the key list when the key exists, else appends
the key. -/
theorem map_fst_jsMapSet (m : List (Nat × CollectedFilePart)) (k : Nat)
    (v : CollectedFilePart) :
    (jsMapSet m k v).map Prod.fst
      = if m.any (fun q => decide (q.1 = k)) then m.map Prod.fst
        else m.map Prod.fst ++ [k] := by
  unfold jsMapSet
  by_cases h : m.any (fun q => decide (q.1 = k))
  · rw [if_pos h, if_pos h, List.map_map]
    apply List.map_congr_left
    intro q _
    by_cases hq : q.1 = k <;> simp [hq]
  · rw [if_neg h, if_neg h, List.map_append]
    rfl

/-- Helper: Map.set preserves distinctness of the keys. -/
theorem nodup_keys_jsMapSet (m : List (Nat × CollectedFilePart)) (k : Nat)
    (v : CollectedFilePart) (h : (m.map Prod.fst).Nodup) :
    ((jsMapSet m k v).map Prod.fst).Nodup := by
  rw [map_fst_jsMapSet]
  by_cases ha : m.any (fun q => decide (q.1 = k))
  · rw [if_pos ha]; exact h
  · rw [if_neg ha]
    have hk : k ∉ m.map Prod.fst := by
      intro hkm
      obtain ⟨q, hq, hqk⟩ := List.mem_map.mp hkm
      exact ha (List.any_eq_true.mpr ⟨q, hq, by simp [hqk]⟩)
    simp [List.nodup_append, h, hk]

/-- Helper: the keys after Map.set are the old keys plus the set key. -/
theorem mem_map_fst_jsMapSet (m : List (Nat × CollectedFilePart)) (k : Nat)
    (v : CollectedFilePart) (k2 : Nat) :
    k2 ∈ (jsMapSet m k v).map Prod.fst
      ↔ k2 = k ∨ k2 ∈ m.map Prod.fst := by
  rw [map_fst_jsMapSet]
  by_cases ha : m.any (fun q => decide (q.1 = k))
  · rw [if_pos ha]
    have hk : k ∈ m.map Prod.fst := by
      obtain ⟨q, hq, hqk⟩ := List.any_eq_true.mp ha
      exact List.mem_map.mpr ⟨q, hq, by simpa using hqk⟩
    constructor
    · exact Or.inr
    · rintro (rfl | h)
      · exact hk
      · exact h
  · rw [if_neg ha]
    simp [List.mem_append, or_comm]

/-- Helper: folding Map.set over a pair list preserves key distinctness. -/
theorem nodup_keys_foldl_jsMapSet (ps : List (Nat × CollectedFilePart)) :
    ∀ m, (m.map Prod.fst).Nodup →
      (((ps.foldl (fun acc q => jsMapSet acc q.1 q.2) m)).map Prod.fst).Nodup := by
  induction ps with
  | nil => intro m h; exact h
  | cons q rest ih =>
    intro m h
    rw [List.foldl_cons]
    exact ih _ (nodup_keys_jsMapSet m q.1 q.2 h)

/-- Helper: the keys after folding Map.set are the folded keys plus the
initial ones. -/
theorem mem_keys_foldl_jsMapSet (ps : List (Nat × CollectedFilePart)) :
    ∀ m k, k ∈ ((ps.foldl (fun acc q => jsMapSet acc q.1 q.2) m)).map Prod.fst
      ↔ k ∈ ps.map Prod.fst ∨ k ∈ m.map Prod.fst := by
  induction ps with
  | nil => intro m k; simp
  | cons q rest ih =>
    intro m k
    rw [List.foldl_cons, ih]
    rw [mem_map_fst_jsMapSet]
    simp [List.mem_cons]
    tauto

/-- Helper: a last-match fold restarted from an arbitrary accumulator. -/
theorem lastPair_foldl (ps : List (Nat × CollectedFilePart)) (k : Nat) :
    ∀ acc : Option (Nat × CollectedFilePart),
      ps.foldl (fun a q => if q.1 = k then some q else a) acc
        = match ps.foldl (fun a q => if q.1 = k then some q else a) none with
          | some q => some q
          | none => acc := by
  induction ps with
  | nil => intro acc; simp
  | cons q rest ih =>
    intro acc
    rw [List.foldl_cons, List.foldl_cons,
      ih (if q.1 = k then some q else acc),
      ih (if q.1 = k then some q else none)]
    cases h : rest.foldl (fun a p => if p.1 = k then some p else a) none <;>
      by_cases hq : q.1 = k <;> simp [hq]

/-- Helper: lookup in the folded Map is the value of the last pair with
that key, falling back to the initial map. -/
theorem listLookup_foldl_jsMapSet (ps : List (Nat × CollectedFilePart)) :
    ∀ (m : List (Nat × CollectedFilePart)) (k : Nat),
      listLookup (ps.foldl (fun acc q => jsMapSet acc q.1 q.2) m) k
        = match ps.foldl (fun a q => if q.1 = k then some q else a) none with
          | some q => some q.2
          | none => listLookup m k := by
  induction ps with
  | nil => intro m k; simp
  | cons q rest ih =>
    intro m k
    rw [List.foldl_cons, List.foldl_cons, ih,
      lastPair_foldl rest k (if q.1 = k then some q else none)]
    cases h : rest.foldl (fun a p => if p.1 = k then some p else a) none with
    | some p => simp
    | none =>
      by_cases hq : q.1 = k
      · simp only [hq, if_pos rfl]
        rw [listLookup_jsMapSet]
        simp [hq]
      · simp only [if_neg hq]
        rw [listLookup_jsMapSet]
        simp [Ne.symm hq]

/-- Helper: lookup is invariant under permutation when keys are distinct. -/
theorem listLookup_perm (l l2 : List (Nat × CollectedFilePart))
    (hp : l.Perm l2) (hnd : (l.map Prod.fst).Nodup) (k : Nat) :
    listLookup l k = listLookup l2 k := by
  unfold listLookup
  cases hf : l.find? (fun q => q.1 == k) with
  | none =>
    have h2 : l2.find? (fun q => q.1 == k) = none := by
      rw [List.find?_eq_none] at hf ⊢
      intro x hx
      exact hf x (hp.mem_iff.mpr hx)
    rw [h2]
  | some x =>
    have hxl : x ∈ l := List.mem_of_find?_eq_some hf
    have hxk := List.find?_some hf
    cases hf2 : l2.find? (fun q => q.1 == k) with
    | none =>
      rw [List.find?_eq_none] at hf2
      exact absurd hxk (by simpa using hf2 x (hp.mem_iff.mp hxl))
    | some y =>
      have hyl : y ∈ l := hp.mem_iff.mpr (List.mem_of_find?_eq_some hf2)
      have hyk := List.find?_some hf2
      have : x = y := by
        apply List.inj_on_of_nodup_map hnd hxl hyl
        have h1 : x.1 = k := by simpa using hxk
        have h2 : y.1 = k := by simpa using hyk
        rw [h1, h2]
      rw [this]

/-- Helper: two association lists strictly sorted by key and with the same
lookups are equal. -/
theorem eq_of_sortedKeys_lookup :
    ∀ l1 l2 : List (Nat × CollectedFilePart),
      l1.Pairwise (fun a b => a.1 < b.1) → l2.Pairwise (fun a b => a.1 < b.1) →
      (∀ k, listLookup l1 k = listLookup l2 k) → l1 = l2 := by
  intro l1
  induction l1 with
  | nil =>
    intro l2 _ _ hl
    cases l2 with
    | nil => rfl
    | cons q t =>
      have := hl q.1
      unfold listLookup at this
      rw [List.find?_cons, show (q.1 == q.1) = true by simp] at this
      simp at this
  | cons p t1 ih =>
    intro l2 h1 h2 hl
    cases l2 with
    | nil =>
      have := hl p.1
      unfold listLookup at this
      rw [List.find?_cons, show (p.1 == p.1) = true by simp] at this
      simp at this
    | cons q t2 =>
      have hmem1 : ∀ x ∈ p :: t1, listLookup (p :: t1) x.1 ≠ none := by
        intro x hx hc
        unfold listLookup at hc
        rw [Option.map_eq_none'] at hc
        rw [List.find?_eq_none] at hc
        exact absurd (by simp : (x.1 == x.1) = true) (hc x hx)
      have key1 : ∀ km, listLookup (q :: t2) km ≠ none → q.1 = km ∨ q.1 < km := by
        intro km hlk
        unfold listLookup at hlk
        cases hfk : (q :: t2).find? (fun r => r.1 == km) with
        | none => rw [hfk] at hlk; exact absurd rfl hlk
        | some x =>
          have hxm : x ∈ q :: t2 := List.mem_of_find?_eq_some hfk
          have hxk : x.1 = km := by simpa using List.find?_some hfk
          rcases List.mem_cons.mp hxm with rfl | hxt
          · exact Or.inl hxk
          · exact Or.inr (hxk ▸ (List.pairwise_cons.mp h2).1 x hxt)
      have key2 : ∀ km, listLookup (p :: t1) km ≠ none → p.1 = km ∨ p.1 < km := by
        intro km hlk
        unfold listLookup at hlk
        cases hfk : (p :: t1).find? (fun r => r.1 == km) with
        | none => rw [hfk] at hlk; exact absurd rfl hlk
        | some x =>
          have hxm : x ∈ p :: t1 := List.mem_of_find?_eq_some hfk
          have hxk : x.1 = km := by simpa using List.find?_some hfk
          rcases List.mem_cons.mp hxm with rfl | hxt
          · exact Or.inl hxk
          · exact Or.inr (hxk ▸ (List.pairwise_cons.mp h1).1 x hxt)
      have hq1 : q.1 = p.1 ∨ q.1 < p.1 := by
        apply key1
        rw [← hl p.1]
        exact hmem1 p (List.mem_cons_self p t1)
      have hp1 : p.1 = q.1 ∨ p.1 < q.1 := by
        apply key2
        rw [hl q.1]
        intro hc
        unfold listLookup at hc
        rw [List.find?_cons, show (q.1 == q.1) = true by simp] at hc
        simp at hc
      have hpq : p.1 = q.1 := by omega
      have hv : p.2 = q.2 := by
        have := hl p.1
        unfold listLookup at this
        rw [List.find?_cons, show (p.1 == p.1) = true by simp] at this
        rw [List.find?_cons, show (q.1 == p.1) = true by simp [hpq]] at this
        simpa using this
      have htl : ∀ k, listLookup t1 k = listLookup t2 k := by
        intro k
        by_cases hk : k = p.1
        · have n1 : listLookup t1 k = none := by
            unfold listLookup
            rw [Option.map_eq_none', List.find?_eq_none]
            intro x hx
            have := (List.pairwise_cons.mp h1).1 x hx
            simp
            omega
          have n2 : listLookup t2 k = none := by
            unfold listLookup
            rw [Option.map_eq_none', List.find?_eq_none]
            intro x hx
            have := (List.pairwise_cons.mp h2).1 x hx
            simp
            omega
          rw [n1, n2]
        · have := hl k
          unfold listLookup at this ⊢
          rw [List.find?_cons, show (p.1 == k) = false by simp [Ne.symm hk]] at this
          rw [List.find?_cons,
            show (q.1 == k) = false by simp [← hpq, Ne.symm hk]] at this
          exact this
      have hhead : p = q := Prod.ext hpq hv
      rw [hhead, ih t2 (List.pairwise_cons.mp h1).2 (List.pairwise_cons.mp h2).2 htl]

/-- Helper: the last-match fold only ever returns pairs with the searched
key. -/
theorem lastPair_foldl_key (k : Nat) (ps : List (Nat × CollectedFilePart)) :
    ∀ acc : Option (Nat × CollectedFilePart),
      (∀ x, acc = some x → x.1 = k) →
      ∀ q, ps.foldl (fun a r => if r.1 = k then some r else a) acc = some q →
        q.1 = k := by
  induction ps with
  | nil =>
    intro acc hacc q h
    exact hacc q h
  | cons r rest ih =>
    intro acc hacc q h
    rw [List.foldl_cons] at h
    refine ih _ ?_ q h
    intro x hx
    by_cases hr : r.1 = k
    · rw [if_pos hr] at hx
      cases hx
      exact hr
    · rw [if_neg hr] at hx
      exact hacc x hx

/-- Helper: a last indexed pair carries its own index. -/
theorem lastIndexedPair_key (parts : List RawPart) (i : Nat)
    (q : Nat × CollectedFilePart) (h : lastIndexedPair parts i = some q) :
    q.1 = i :=
  lastPair_foldl_key i (indexedPairs parts) none (by intro x hx; cases hx) q h

/-- Helper: the last-match fold misses exactly when the key is absent. -/
theorem lastPair_foldl_eq_none_iff (k : Nat)
    (ps : List (Nat × CollectedFilePart)) :
    (ps.foldl (fun a r => if r.1 = k then some r else a) none = none)
      ↔ k ∉ ps.map Prod.fst := by
  induction ps with
  | nil => simp
  | cons r rest ih =>
    rw [List.foldl_cons, lastPair_foldl rest k]
    cases h : rest.foldl (fun a p => if p.1 = k then some p else a) none with
    | some p =>
      have : k ∈ rest.map Prod.fst := by
        by_contra hc
        exact absurd (h.symm.trans (ih.mpr hc)) (by simp)
      simp [this]
    | none =>
      have hk := ih.mp h
      by_cases hr : r.1 = k
      · simp [hr, hk]
      · simp [hr, hk]
        exact fun hc => hr hc.symm

/-- Helper: lookup in an index list mapped through the last-pair function. -/
theorem listLookup_filterMap_lastPair (parts : List RawPart) :
    ∀ idxs : List Nat, idxs.Nodup → ∀ k,
      listLookup (idxs.filterMap (lastIndexedPair parts)) k
        = if k ∈ idxs
          then (match lastIndexedPair parts k with
                | some q => some q.2
                | none => none)
          else none := by
  intro idxs
  induction idxs with
  | nil => intro _ k; simp [listLookup]
  | cons i rest ih =>
    intro hnd k
    have hnd2 := (List.nodup_cons.mp hnd).2
    have hni : i ∉ rest := (List.nodup_cons.mp hnd).1
    rw [List.filterMap_cons]
    cases hli : lastIndexedPair parts i with
    | none =>
      rw [ih hnd2 k]
      by_cases hk : k = i
      · subst hk
        simp [hni, hli]
      · simp [List.mem_cons, hk]
    | some q =>
      have hqk : q.1 = i := lastIndexedPair_key parts i q hli
      by_cases hk : k = i
      · subst hk
        unfold listLookup
        rw [List.find?_cons, show (q.1 == k) = true by simp [hqk]]
        simp [hli]
      · unfold listLookup
        rw [List.find?_cons, show (q.1 == k) = false by simp [hqk, Ne.symm hk]]
        have := ih hnd2 k
        unfold listLookup at this
        rw [this]
        simp [List.mem_cons, hk]

/-- Helper: non-strict key order plus distinct keys gives strict order. -/
theorem pairwise_lt_of_pairwise_le_nodup (l : List (Nat × CollectedFilePart))
    (h1 : l.Pairwise (fun a b => a.1 ≤ b.1))
    (h2 : (l.map Prod.fst).Nodup) :
    l.Pairwise (fun a b => a.1 < b.1) := by
  have h3 : l.Pairwise (fun a b => a.1 ≠ b.1) := List.pairwise_map.mp h2
  exact (h1.and h3).imp (fun h => lt_of_le_of_ne h.1 h.2)

/-- Helper: a sorted duplicate-free index list is strictly increasing. -/
theorem pairwise_lt_of_sorted_nodup (l : List Nat)
    (h1 : l.Pairwise (fun a b => a ≤ b)) (h2 : l.Nodup) :
    l.Pairwise (fun a b => a < b) :=
  (h1.and h2).imp (fun h => lt_of_le_of_ne h.1 h.2)

instance : IsTotal (Nat × CollectedFilePart) (fun a b => a.1 ≤ b.1) :=
  ⟨fun a b => Nat.le_total a.1 b.1⟩

instance : IsTrans (Nat × CollectedFilePart) (fun a b => a.1 ≤ b.1) :=
  ⟨fun _ _ _ h1 h2 => Nat.le_trans h1 h2⟩

/-- Helper: the sorted JS Map of indexed files equals the sorted distinct
indices mapped through the last-pair function. -/
theorem sortByKey_foldl_eq_spec (parts : List RawPart) :
    sortByKey ((indexedPairs parts).foldl
        (fun acc q => jsMapSet acc q.1 q.2) [])
      = (((indexedPairs parts).map Prod.fst).dedup.insertionSort
          (· ≤ ·)).filterMap (lastIndexedPair parts) := by
  have hmnd : (((indexedPairs parts).foldl
      (fun acc q => jsMapSet acc q.1 q.2) []).map Prod.fst).Nodup :=
    nodup_keys_foldl_jsMapSet (indexedPairs parts) [] (by simp)
  have hperm : (sortByKey ((indexedPairs parts).foldl
      (fun acc q => jsMapSet acc q.1 q.2) [])).Perm
        ((indexedPairs parts).foldl (fun acc q => jsMapSet acc q.1 q.2) []) :=
    List.perm_insertionSort _ _
  have hsortnd : ((sortByKey ((indexedPairs parts).foldl
      (fun acc q => jsMapSet acc q.1 q.2) [])).map Prod.fst).Nodup :=
    ((hperm.map Prod.fst).nodup_iff).mpr hmnd
  have hidxnd : (((indexedPairs parts).map Prod.fst).dedup.insertionSort
      (· ≤ ·)).Nodup :=
    (List.perm_insertionSort _ _).nodup_iff.mpr (List.nodup_dedup _)
  apply eq_of_sortedKeys_lookup
  · exact pairwise_lt_of_pairwise_le_nodup _
      (List.sorted_insertionSort _ _) hsortnd
  · apply List.pairwise_filterMap.mpr
    have hsor : (((indexedPairs parts).map Prod.fst).dedup.insertionSort
        (· ≤ ·)).Pairwise (fun a b => a < b) :=
      pairwise_lt_of_sorted_nodup _ (List.sorted_insertionSort _ _) hidxnd
    apply hsor.imp
    intro a b hab x hx y hy
    have hxa : x.1 = a := lastIndexedPair_key parts a x (by simpa using hx)
    have hyb : y.1 = b := lastIndexedPair_key parts b y (by simpa using hy)
    rw [hxa, hyb]
    exact hab
  · intro k
    rw [listLookup_perm _ _ hperm hsortnd k]
    rw [listLookup_foldl_jsMapSet (indexedPairs parts) [] k]
    rw [listLookup_filterMap_lastPair parts _ hidxnd k]
    by_cases hk : k ∈ ((indexedPairs parts).map Prod.fst).dedup.insertionSort (· ≤ ·)
    · rw [if_pos hk]
      show (match lastIndexedPair parts k with
        | some q => some q.2
        | none => listLookup [] k)
          = (match lastIndexedPair parts k with
        | some q => some q.2
        | none => none)
      cases lastIndexedPair parts k <;> simp [listLookup]
    · rw [if_neg hk]
      have hnone : lastIndexedPair parts k = none := by
        unfold lastIndexedPair
        rw [lastPair_foldl_eq_none_iff]
        intro hmem
        exact hk (((List.perm_insertionSort _ _).mem_iff).mpr
          (List.mem_dedup.mpr hmem))
      show (match lastIndexedPair parts k with
        | some q => some q.2
        | none => listLookup [] k) = none
      rw [hnone]
      simp [listLookup]

/-- C8: the collector's output file list is the one the claim describes:
whenever at least one indexed file part (fieldname `file_<i>`, i ≥ 0) is
present it is the indexed entries ordered by numeric index ascending, with
flat-convention files excluded; otherwise it is the flat-convention files
in arrival order. -/
theorem collectPartsFromMultipart_files_ordering (parts : List RawPart) :
    collectedFiles parts = collectFilesSpec parts := by
  unfold collectedFiles collectPartsFromMultipart collectFilesSpec
  have hby := foldl_collectStep_byIndex parts
    { fields := [], files := [], filesByIndex := [] }
  have hfi := foldl_collectStep_files parts
    { fields := [], files := [], filesByIndex := [] }
  by_cases hip : indexedPairs parts = []
  · have hm : (parts.foldl collectStep
        { fields := [], files := [], filesByIndex := [] }).filesByIndex = [] := by
      rw [hby, hip]
      rfl
    rw [if_pos hip]
    simp [hm, hfi]
  · rw [if_neg hip]
    have hne2 : (indexedPairs parts).foldl
        (fun m q => jsMapSet m q.1 q.2) [] ≠ [] := by
      intro hc
      cases hip2 : indexedPairs parts with
      | nil => exact hip hip2
      | cons q rest =>
        have hmem : q.1 ∈ ((indexedPairs parts).foldl
            (fun m p => jsMapSet m p.1 p.2) []).map Prod.fst := by
          apply (mem_keys_foldl_jsMapSet (indexedPairs parts) [] q.1).mpr
          exact Or.inl (by rw [hip2]; simp)
        rw [hc] at hmem
        simp at hmem
    have hie2 : ((indexedPairs parts).foldl
        (fun m q => jsMapSet m q.1 q.2) []).isEmpty = false := by
      cases hl : (indexedPairs parts).foldl
          (fun m q => jsMapSet m q.1 q.2) [] with
      | nil => exact absurd hl hne2
      | cons a l => rfl
    simp only [hby, hie2, Bool.false_eq_true, if_false]
    show (sortByKey ((indexedPairs parts).foldl
        (fun acc q => jsMapSet acc q.1 q.2) [])).map (fun p => p.2)
      = (((indexedPairs parts).map Prod.fst).dedup.insertionSort
          (· ≤ ·)).filterMap (lastEntryFor parts)
    rw [sortByKey_foldl_eq_spec parts]
    rw [List.map_filterMap]
    rfl

end Vault
